import Mathlib

/-!
Verification of the spreadsheet-processor pipeline (filter engine, transform
engine with XLOOKUP resolution and custom-formula error handling, missing-value
auditor, template mapper) against its natural-language specification.

The embedding models the JavaScript value/row semantics the pipeline operates
on: a row is an insertion-ordered association list of field name to scalar
value, mirroring a JS object; scalar values are strings, numbers, null and
undefined.  JS numbers are modelled as exact rationals extended with NaN and
signed infinities (double rounding, `-0`, hexadecimal/exponent numeric string
forms and non-ASCII case mapping are outside the model and outside every input
exercised here).  The custom-formula host evaluator (`new Function`) is a
parameter of the engine; concrete instantiations model it on the restricted
formula shapes actually exercised.
-/

/-- JS number: NaN, the two infinities, or a finite value (modelled exactly as a rational). -/
inductive JsNum where
  | nan : JsNum
  | inf : JsNum
  | negInf : JsNum
  | fin : ℚ → JsNum
deriving DecidableEq

/-- JS scalar value as stored in a data row: string, number, null or undefined. -/
inductive Value where
  | vStr : String → Value
  | vNum : JsNum → Value
  | vNull : Value
  | vUndef : Value
deriving DecidableEq

open Value

/-- JS strict equality `===` on scalars: no coercion across types; `NaN === NaN` is false. -/
def jsStrictEq : Value → Value → Bool
  | vStr a, vStr b => decide (a = b)
  | vNum (.fin a), vNum (.fin b) => decide (a = b)
  | vNum .inf, vNum .inf => true
  | vNum .negInf, vNum .negInf => true
  | vNull, vNull => true
  | vUndef, vUndef => true
  | _, _ => false

/-- Whitespace characters recognised by the model of `String.prototype.trim`. -/
def jsWs (c : Char) : Bool := c = ' ' || c = '\t' || c = '\n' || c = '\r'

/-- Trim on character lists: drop leading and trailing whitespace. -/
def jsTrimList (l : List Char) : List Char :=
  ((l.dropWhile jsWs).reverse.dropWhile jsWs).reverse

/-- Model of `String.prototype.trim`. -/
def jsTrim (s : String) : String := String.mk (jsTrimList s.data)

/-- ASCII lower-casing of one character, the model of `toLowerCase` per character. -/
def jsLowerChar (c : Char) : Char :=
  if 65 ≤ c.toNat ∧ c.toNat ≤ 90 then Char.ofNat (c.toNat + 32) else c

/-- Model of `String.prototype.toLowerCase` (ASCII). -/
def jsLower (s : String) : String := String.mk (s.data.map jsLowerChar)

/-- Digit run to natural number. -/
def digitsToNat (l : List Char) : Nat :=
  l.foldl (fun a c => a * 10 + (c.toNat - 48)) 0

/-- Parse an unsigned decimal numeral (digits, optionally a point and digits).
Mirrors the numeric string grammar accepted by JS `Number` on the inputs the
pipeline meets (no exponents or hexadecimal forms). -/
def parseDecimal (l : List Char) : Option ℚ :=
  match l.span Char.isDigit with
  | (ip, []) => if ip = [] then none else some (digitsToNat ip)
  | (ip, '.' :: fp) =>
    if fp.all Char.isDigit ∧ (ip ≠ [] ∨ fp ≠ []) then
      some ((digitsToNat ip : ℚ) + (digitsToNat fp : ℚ) / ((10 : ℚ) ^ fp.length))
    else none
  | _ => none

/-- Parse a signed decimal numeral or an `Infinity` form. -/
def parseSigned (l : List Char) : JsNum :=
  match l with
  | '-' :: rest =>
    if rest = "Infinity".data then .negInf
    else match parseDecimal rest with
      | some q => .fin (-q)
      | none => .nan
  | '+' :: rest =>
    if rest = "Infinity".data then .inf
    else match parseDecimal rest with
      | some q => .fin q
      | none => .nan
  | _ =>
    if l = "Infinity".data then .inf
    else match parseDecimal l with
      | some q => .fin q
      | none => .nan

/-- Model of `Number(string)`: trim, empty means zero, else parse. -/
def jsStrToNum (s : String) : JsNum :=
  let t := jsTrimList s.data
  if t = [] then .fin 0 else parseSigned t

/-- Model of `Number(value)` coercion on a row scalar. -/
def jsToNum : Value → JsNum
  | vNum n => n
  | vNull => .fin 0
  | vUndef => .nan
  | vStr s => jsStrToNum s

/-- Decimal exponent making a rational an integer, if one at most 40 exists
(every JS double has a finite decimal expansion). -/
def decExp (q : ℚ) : Option Nat :=
  (List.range 41).find? (fun k => (q * ((10 : ℚ) ^ k)).den = 1)

/-- Render a non-negative rational with `k` decimal digits. -/
def renderDecimal (q : ℚ) (k : Nat) : String :=
  if k = 0 then toString q.num
  else
    let n := (q * ((10 : ℚ) ^ k)).num.toNat
    let digits := toString n
    let digits := if digits.length ≤ k then String.mk (List.replicate (k + 1 - digits.length) '0') ++ digits else digits
    String.mk (digits.data.take (digits.length - k)) ++ "." ++ String.mk (digits.data.drop (digits.length - k))

/-- Model of `String(number)` on the numbers this pipeline produces. -/
def jsNumToString : JsNum → String
  | .nan => "NaN"
  | .inf => "Infinity"
  | .negInf => "-Infinity"
  | .fin q =>
    if q < 0 then
      match decExp (-q) with
      | some k => "-" ++ renderDecimal (-q) k
      | none => "?"
    else
      match decExp q with
      | some k => renderDecimal q k
      | none => "?"

/-- Model of `String(value)` on a row scalar. -/
def jsToString : Value → String
  | vStr s => s
  | vNum n => jsNumToString n
  | vNull => "null"
  | vUndef => "undefined"

/-- JS truthiness of a row scalar. -/
def jsTruthy : Value → Bool
  | vStr s => decide (s ≠ "")
  | vNum .nan => false
  | vNum (.fin q) => decide (q ≠ 0)
  | vNum .inf => true
  | vNum .negInf => true
  | vNull => false
  | vUndef => false

/-- JS addition on numbers. -/
def jsAdd : JsNum → JsNum → JsNum
  | .nan, _ => .nan
  | _, .nan => .nan
  | .inf, .negInf => .nan
  | .negInf, .inf => .nan
  | .inf, _ => .inf
  | _, .inf => .inf
  | .negInf, _ => .negInf
  | _, .negInf => .negInf
  | .fin a, .fin b => .fin (a + b)

/-- JS subtraction on numbers. -/
def jsSub : JsNum → JsNum → JsNum
  | .nan, _ => .nan
  | _, .nan => .nan
  | .inf, .inf => .nan
  | .negInf, .negInf => .nan
  | .inf, _ => .inf
  | _, .inf => .negInf
  | .negInf, _ => .negInf
  | _, .negInf => .inf
  | .fin a, .fin b => .fin (a - b)

/-- JS multiplication on numbers. -/
def jsMul : JsNum → JsNum → JsNum
  | .nan, _ => .nan
  | _, .nan => .nan
  | .inf, .inf => .inf
  | .inf, .negInf => .negInf
  | .negInf, .inf => .negInf
  | .negInf, .negInf => .inf
  | .inf, .fin b => if b = 0 then .nan else if 0 < b then .inf else .negInf
  | .fin a, .inf => if a = 0 then .nan else if 0 < a then .inf else .negInf
  | .negInf, .fin b => if b = 0 then .nan else if 0 < b then .negInf else .inf
  | .fin a, .negInf => if a = 0 then .nan else if 0 < a then .negInf else .inf
  | .fin a, .fin b => .fin (a * b)

/-- JS division on numbers. -/
def jsDiv : JsNum → JsNum → JsNum
  | .nan, _ => .nan
  | _, .nan => .nan
  | .inf, .inf => .nan
  | .inf, .negInf => .nan
  | .negInf, .inf => .nan
  | .negInf, .negInf => .nan
  | .inf, .fin b => if 0 ≤ b then .inf else .negInf
  | .negInf, .fin b => if 0 ≤ b then .negInf else .inf
  | .fin _, .inf => .fin 0
  | .fin _, .negInf => .fin 0
  | .fin a, .fin b =>
    if b = 0 then (if a = 0 then .nan else if 0 < a then .inf else .negInf)
    else .fin (a / b)

/-- JS `>` after numeric coercion: false whenever either side is NaN. -/
def jsNumGt : JsNum → JsNum → Bool
  | .nan, _ => false
  | _, .nan => false
  | .inf, .inf => false
  | .inf, _ => true
  | .negInf, _ => false
  | .fin _, .inf => false
  | .fin _, .negInf => true
  | .fin a, .fin b => decide (b < a)

/-- JS `<` after numeric coercion: false whenever either side is NaN. -/
def jsNumLt : JsNum → JsNum → Bool
  | .nan, _ => false
  | _, .nan => false
  | .inf, _ => false
  | _, .inf => true
  | .negInf, .negInf => false
  | .negInf, _ => true
  | _, .negInf => false
  | .fin a, .fin b => decide (a < b)

/-- A data row: a JS object modelled as an insertion-ordered association list
of field name to scalar.  A missing key reads as `undefined`. -/
def Row : Type := List (String × Value)

instance : DecidableEq Row := inferInstanceAs (DecidableEq (List (String × Value)))

/-- Model of `row[k]`: the value at the first occurrence of `k`, else undefined. -/
def rowGet (r : Row) (k : String) : Value :=
  match List.find? (fun p => decide (p.1 = k)) r with
  | some p => p.2
  | none => vUndef

/-- Model of `row[k] = v` on a JS object: update the existing key in place,
else append the key at the end (insertion order). -/
def rowSet : Row → String → Value → Row
  | [], k, v => [(k, v)]
  | (k', v') :: rest, k, v =>
    if k' = k then (k, v) :: rest else (k', v') :: rowSet rest k v

/-- Model of `Object.keys(row)`, in insertion order (no integer-like field
names, which JS would reorder, occur in this development). -/
def rowKeys (r : Row) : List String := r.map Prod.fst

/-- JS word character, the `\w` class used by the `\b` assertion: ASCII
letters, digits and underscore. -/
def isWordChar (c : Char) : Bool := c.isAlphanum || c = '_'

/-- Word-ness of an optional character; a string edge counts as non-word. -/
def optWord : Option Char → Bool
  | none => false
  | some c => isWordChar c

/-- Does the literal pattern match at the head of `s`, flanked by `\b` word
boundaries, `prev` being the character just before this position? -/
def wbMatchAt (pat : List Char) (prev : Option Char) (s : List Char) : Bool :=
  decide (pat ≠ []) && pat.isPrefixOf s &&
    (optWord prev != optWord pat.head?) &&
    (optWord pat.getLast? != optWord (s.drop pat.length).head?)

/-- Fuel-driven scan performing the global replacement of
`new RegExp("\\b" + pat + "\\b", "g")` by `rep` (left to right,
non-overlapping), for literal patterns free of regex metacharacters —
the only patterns this development exercises. -/
def wbScanAux (pat rep : List Char) : Nat → Option Char → List Char → List Char
  | _, _, [] => []
  | 0, _, _ :: _ => []
  | Nat.succ n, prev, c :: cs =>
    if wbMatchAt pat prev (c :: cs) then
      rep ++ wbScanAux pat rep n pat.getLast? (cs.drop (pat.length - 1))
    else
      c :: wbScanAux pat rep n (some c) cs

/-- Model of `formula.replace(new RegExp("\\b" + pat + "\\b", "g"), rep)`. -/
def jsWordReplace (s pat rep : String) : String :=
  String.mk (wbScanAux pat.data rep.data s.data.length none s.data)

/-- Model of `key.replace(/[^a-zA-Z0-9_]/g, "_")`. -/
def safeKey (k : String) : String :=
  String.mk (k.data.map (fun c => if isWordChar c then c else '_'))

/-- Model of `Number(x) || x`: the numeric coercion when truthy, else the raw value. -/
def jsNumOr (v : Value) : Value :=
  if jsTruthy (vNum (jsToNum v)) then vNum (jsToNum v) else v

/-- The evaluation scope built for a custom formula: every field of the row is
bound under its safe key to `Number(value) || value`, iterating the keys in
object order (later collisions overwrite). -/
def buildEvalContext (r : Row) : Row :=
  (rowKeys r).foldl (fun ctx k => rowSet ctx (safeKey k) (jsNumOr (rowGet r k))) []

/-- The formula after rewriting every field name, in object key order, to its
safe key under whole-word (`\b`-bounded) matching. -/
def rewriteFormula (r : Row) (f : String) : String :=
  (rowKeys r).foldl (fun sf k => jsWordReplace sf k (safeKey k)) f

/-- Filter operators of the filter engine. -/
inductive FilterOp where
  | equals : FilterOp
  | contains : FilterOp
  | greaterThan : FilterOp
  | lessThan : FilterOp
deriving DecidableEq

/-- A row filter (type `Filter` in the source; named `RowFilter` here). -/
structure RowFilter where
  id : String
  column : String
  op : FilterOp
  value : String
  caseSensitive : Option Bool
deriving DecidableEq

/-- Transformation kinds (the `text` kind exists in the type but has no case
in the engine switch, hence is a no-op). -/
inductive TransformType where
  | multiply : TransformType
  | add : TransformType
  | subtract : TransformType
  | divide : TransformType
  | concat : TransformType
  | custom : TransformType
  | xlookup : TransformType
  | text : TransformType
deriving DecidableEq

/-- A pipeline transformation.  Optional configuration is `Option String`,
with the empty string also counting as unset (JS falsiness). -/
structure Transformation where
  id : String
  type : TransformType
  newColumnName : String
  sourceColumns : List String
  formula : Option String
  lookupSheet : Option String
  lookupColumn : Option String
  returnColumn : Option String
deriving DecidableEq

/-- An auxiliary (support) dataset usable as a lookup target. -/
structure SupportSheet where
  id : String
  name : String
  data : List Row
  columns : List String

/-- A template column: output name plus optional fixed constant from the
template file. -/
structure TemplateColumn where
  name : String
  constant : Option String
deriving DecidableEq

/-- Model of `String.prototype.includes`: substring test on character lists. -/
def containsSub : List Char → List Char → Bool
  | needle, [] => needle.isEmpty
  | needle, c :: rest => needle.isPrefixOf (c :: rest) || containsSub needle rest

/-- Does one filter pass on a row (`updatePreview`, filter switch)? -/
def rowPassesFilter (f : RowFilter) (r : Row) : Bool :=
  let value := rowGet r f.column
  match f.op with
  | .equals => jsStrictEq value (vStr f.value)
  | .contains =>
    if f.caseSensitive = some true then
      containsSub f.value.data (jsToString value).data
    else
      containsSub (jsLower f.value).data (jsLower (jsToString value)).data
  | .greaterThan => jsNumGt (jsToNum value) (jsToNum (vStr f.value))
  | .lessThan => jsNumLt (jsToNum value) (jsToNum (vStr f.value))

/-- The filter engine: keep the rows passing every filter (an empty filter
list keeps every row, as in the guarded source). -/
def filterData (filters : List RowFilter) (rows : List Row) : List Row :=
  rows.filter (fun r => filters.all (fun f => rowPassesFilter f r))

/-- The diagnostic sentinel written on a failed lookup. -/
def notFoundMsg (key : Value) : String :=
  "Not found: \"" ++ jsToString key ++ "\""

/-- One row qualifies as a lookup match when any of the three equality tests
holds: strict equality, trimmed string equality, or lower-cased trimmed
string equality (`updatePreview`, xlookup case). -/
def tierMatch (compareValue lookupValue : Value) : Bool :=
  jsStrictEq compareValue lookupValue ||
    decide (jsTrim (jsToString compareValue) = jsTrim (jsToString lookupValue)) ||
    decide (jsTrim (jsLower (jsToString compareValue)) = jsTrim (jsLower (jsToString lookupValue)))

/-- Case-insensitive trimmed equality of the string forms of two scalars. -/
def ciTrimEq (v w : Value) : Bool :=
  decide (jsTrim (jsLower (jsToString v)) = jsTrim (jsLower (jsToString w)))

/-- The value an xlookup writes, as a function of the resolved target table
(`none` when the named dataset no longer exists): the first tier-matching
row's return-column value when that value is not null, else the sentinel. -/
def xlookupWriteValue (tbl? : Option (List Row)) (lc rc : String) (key : Value) : Value :=
  match tbl? with
  | some tbl =>
    match tbl.find? (fun rr => tierMatch (rowGet rr lc) key) with
    | some fr => if rowGet fr rc = vNull then vStr (notFoundMsg key) else rowGet fr rc
    | none => vStr (notFoundMsg key)
  | none => vStr (notFoundMsg key)

/-- The host evaluator for custom formulas (`new Function` applied to the
scope values): a parameter of the engine, returning a value or the message of
the thrown exception. -/
def HostEval : Type := Row → String → Except String Value

/-- What one transformation writes on a row, if anything: `some (v, e?)`
writes `v` to `newColumnName` with `e?` a formula-error message; `none` is a
no-op (`updatePreview` lines 614-738, one case per transformation type). -/
def transformWrite (eval : HostEval) (snap : List Row) (sheets : List SupportSheet)
    (r : Row) (t : Transformation) : Option (Value × Option String) :=
  match t.type with
  | .multiply =>
    match t.sourceColumns with
    | [s0, s1] => some (vNum (jsMul (jsToNum (rowGet r s0)) (jsToNum (rowGet r s1))), none)
    | _ => none
  | .add =>
    match t.sourceColumns with
    | [s0, s1] => some (vNum (jsAdd (jsToNum (rowGet r s0)) (jsToNum (rowGet r s1))), none)
    | _ => none
  | .subtract =>
    match t.sourceColumns with
    | [s0, s1] => some (vNum (jsSub (jsToNum (rowGet r s0)) (jsToNum (rowGet r s1))), none)
    | _ => none
  | .divide =>
    match t.sourceColumns with
    | [s0, s1] => some (vNum (jsDiv (jsToNum (rowGet r s0)) (jsToNum (rowGet r s1))), none)
    | _ => none
  | .concat =>
    some (vStr (String.join (t.sourceColumns.map (fun c =>
      match rowGet r c with
      | vNull => ""
      | vUndef => ""
      | v => jsToString v))), none)
  | .xlookup =>
    match t.lookupSheet, t.lookupColumn, t.returnColumn, t.sourceColumns with
    | some ls, some lc, some rc, sc0 :: _ =>
      if ls ≠ "" ∧ lc ≠ "" ∧ rc ≠ "" then
        let key := rowGet r sc0
        let result : Value :=
          if ls = "main" then
            match snap.find? (fun rr => tierMatch (rowGet rr lc) key) with
            | some fr => rowGet fr rc
            | none => vNull
          else
            match sheets.find? (fun sh => decide (sh.id = ls)) with
            | some sh =>
              match sh.data.find? (fun rr => tierMatch (rowGet rr lc) key) with
              | some fr => rowGet fr rc
              | none => vNull
            | none => vNull
        if result = vNull then some (vStr (notFoundMsg key), none)
        else some (result, none)
      else none
    | _, _, _, _ => none
  | .custom =>
    match t.formula with
    | some f =>
      if f ≠ "" then
        match eval (buildEvalContext r) (rewriteFormula r f) with
        | .ok v => some (v, none)
        | .error msg => some (vStr "Error", some msg)
      else none
    | none => none
  | .text => none

/-- Apply one transformation to one row: write the computed value to
`newColumnName`, or leave the row unchanged; also report a formula-error
message when one occurred. -/
def applyTransform (eval : HostEval) (snap : List Row) (sheets : List SupportSheet)
    (r : Row) (t : Transformation) : Row × Option String :=
  match transformWrite eval snap sheets r t with
  | some (v, e) => (rowSet r t.newColumnName v, e)
  | none => (r, none)

/-- Run the transformation list left to right over one row, accumulating the
formula-error messages in order. -/
def runTransformsRow (eval : HostEval) (snap : List Row) (sheets : List SupportSheet)
    (ts : List Transformation) (r : Row) : Row × List String :=
  ts.foldl
    (fun acc t =>
      match applyTransform eval snap sheets acc.1 t with
      | (r', some m) => (r', acc.2 ++ [m])
      | (r', none) => (r', acc.2))
    (r, [])

/-- The transform engine over all rows (row-major, as the source maps the row
function over the filtered data): transformed rows plus the run-scoped list
of formula-error messages (its length is the error counter, its last element
the recorded last error). -/
def runTransforms (eval : HostEval) (snap : List Row) (sheets : List SupportSheet)
    (ts : List Transformation) (rows : List Row) : List Row × List String :=
  let l := rows.map (fun r => runTransformsRow eval snap sheets ts r)
  (l.map Prod.fst, (l.map Prod.snd).flatten)

/-- Filter stage plus transform stage: the post-filter rows serve both as the
rows to transform and as the frozen "main" lookup snapshot. -/
def processData (eval : HostEval) (sheets : List SupportSheet) (filters : List RowFilter)
    (ts : List Transformation) (configured : List Row) : List Row × List String :=
  runTransforms eval (filterData filters configured) sheets ts (filterData filters configured)

/-- Look up the configured mapping for a template column: `null` and a missing
entry collapse to `none` (both are falsy in the source's checks). -/
def mappingFor (mappings : List (String × Option String)) (name : String) : Option String :=
  match List.find? (fun p => decide (p.1 = name)) mappings with
  | some (_, some s) => some s
  | some (_, none) => none
  | none => none

/-- Fill one template row from one processed row (`updatePreview` lines
753-772): template-file constant first, then `CONST:` mapping, then mapped
column under a truthiness test, else empty string. -/
def fillTemplateRow (cols : List TemplateColumn) (mappings : List (String × Option String))
    (row : Row) : Row :=
  cols.foldl
    (fun tr c =>
      rowSet tr c.name
        (match c.constant with
         | some k => vStr k
         | none =>
           match mappingFor mappings c.name with
           | some m =>
             if "CONST:".isPrefixOf m then vStr (m.drop 6)
             else if m ≠ "" ∧ jsTruthy (rowGet row m) then rowGet row m
             else vStr ""
           | none => vStr ""))
    []

/-- The template mapper over all transformed rows. -/
def fillTemplate (cols : List TemplateColumn) (mappings : List (String × Option String))
    (rows : List Row) : List Row :=
  rows.map (fun r => fillTemplateRow cols mappings r)

/-- The spec's value-resolution precedence for one template column on one row,
written directly from the specification text (with the truthiness amendment):
(1) the column's own constant; (2) a literal `CONST:` mapping; (3) a mapped
processed column, used when present and truthy, else empty; (4) unset, empty. -/
def templateValueSpec (c : TemplateColumn) (mappings : List (String × Option String))
    (row : Row) : Value :=
  match c.constant with
  | some k => vStr k
  | none =>
    match mappingFor mappings c.name with
    | some m =>
      if "CONST:".isPrefixOf m then vStr (m.drop 6)
      else if m ≠ "" ∧ jsTruthy (rowGet row m) then rowGet row m
      else vStr ""
    | none => vStr ""

/-- One step of the auditor's replay of a prior transformation
(`checkForMissingLookupValues` lines 169-228, `getMissingLookupValues` lines
91-152): the same arithmetic, concat and custom cases as the engine — with a
custom failure writing `Error` and touching no counter — and no case at all
for xlookup (or text), which therefore leave the row unchanged. -/
def replayStep (eval : HostEval) (r : Row) (t : Transformation) : Row :=
  match t.type with
  | .multiply =>
    match t.sourceColumns with
    | [s0, s1] => rowSet r t.newColumnName (vNum (jsMul (jsToNum (rowGet r s0)) (jsToNum (rowGet r s1))))
    | _ => r
  | .add =>
    match t.sourceColumns with
    | [s0, s1] => rowSet r t.newColumnName (vNum (jsAdd (jsToNum (rowGet r s0)) (jsToNum (rowGet r s1))))
    | _ => r
  | .subtract =>
    match t.sourceColumns with
    | [s0, s1] => rowSet r t.newColumnName (vNum (jsSub (jsToNum (rowGet r s0)) (jsToNum (rowGet r s1))))
    | _ => r
  | .divide =>
    match t.sourceColumns with
    | [s0, s1] => rowSet r t.newColumnName (vNum (jsDiv (jsToNum (rowGet r s0)) (jsToNum (rowGet r s1))))
    | _ => r
  | .concat =>
    rowSet r t.newColumnName (vStr (String.join (t.sourceColumns.map (fun c =>
      match rowGet r c with
      | vNull => ""
      | vUndef => ""
      | v => jsToString v))))
  | .custom =>
    match t.formula with
    | some f =>
      if f ≠ "" then
        match eval (buildEvalContext r) (rewriteFormula r f) with
        | .ok v => rowSet r t.newColumnName v
        | .error _ => rowSet r t.newColumnName (vStr "Error")
      else r
    | none => r
  | .xlookup => r
  | .text => r

/-- The auditor's replay of transformations `[0, i)` over the configured
(post-column-selection, pre-filter) rows, transform-major as in the source. -/
def auditReplay (eval : HostEval) (ts : List Transformation) (i : Nat) (rows : List Row) : List Row :=
  (ts.take i).foldl (fun rs t => rs.map (fun r => replayStep eval r t)) rows

/-- Is a row value an eligible lookup key for the audit (not absent, null,
empty, whitespace-only, or one of the `Error` / `undefined` / `null`
sentinel string forms)? -/
def keyEligible (v : Value) : Bool :=
  decide (v ≠ vUndef) && decide (v ≠ vNull) && decide (v ≠ vStr "") &&
    decide (jsTrim (jsToString v) ≠ "") &&
    decide (jsToString v ≠ "Error") && decide (jsToString v ≠ "undefined") &&
    decide (jsToString v ≠ "null")

/-- Insert into the audit key set, preserving first-insertion order. -/
def insertUnique (l : List String) (s : String) : List String :=
  if s ∈ l then l else l ++ [s]

/-- Collect the distinct trimmed eligible key values of a column across the
replayed rows (the `allLookupValues` set of the source). -/
def collectKeys (rows : List Row) (col : String) : List String :=
  rows.foldl
    (fun acc r =>
      let v := rowGet r col
      if keyEligible v then insertUnique acc (jsTrim (jsToString v)) else acc)
    []

/-- Does a collected key find any tier match in the audit's target: the
replayed rows themselves for `main`, else the named support sheet's data
(a missing sheet finds nothing)? -/
def auditFound (replayed : List Row) (sheets : List SupportSheet) (ls lc : String)
    (k : String) : Bool :=
  if ls = "main" then
    replayed.any (fun r => tierMatch (rowGet r lc) (vStr k))
  else
    match sheets.find? (fun sh => decide (sh.id = ls)) with
    | some sh => sh.data.any (fun r => tierMatch (rowGet r lc) (vStr k))
    | none => false

/-- The auditor's missing keys for the xlookup transformation `t` at position
`i` (`checkForMissingLookupValues`): guard on lookup sheet, lookup column and
a first source column; replay `[0, i)`; collect the distinct trimmed keys;
keep those with no tier match in the target. -/
def auditMissingKeys (eval : HostEval) (ts : List Transformation)
    (sheets : List SupportSheet) (configured : List Row) (t : Transformation)
    (i : Nat) : List String :=
  match t.lookupSheet, t.lookupColumn, t.sourceColumns with
  | some ls, some lc, sc0 :: _ =>
    if ls ≠ "" ∧ lc ≠ "" then
      let replayed := auditReplay eval ts i configured
      (collectKeys replayed sc0).filter (fun k => !auditFound replayed sheets ls lc k)
    else []
  | _, _, _ => []

theorem rowGet_rowSet_self (r : Row) (k : String) (v : Value) :
    rowGet (rowSet r k v) k = v := by
  induction r with
  | nil => simp [rowSet, rowGet, List.find?]
  | cons p rest ih =>
    by_cases h : p.1 = k
    · simp [rowSet, h, rowGet, List.find?]
    · simp only [rowSet]
      rw [if_neg h]
      simpa [rowGet, List.find?, h] using ih

theorem rowGet_rowSet_ne (r : Row) (k k' : String) (v : Value) (h : k' ≠ k) :
    rowGet (rowSet r k v) k' = rowGet r k' := by
  have h' : ¬ (k = k') := fun hh => h hh.symm
  induction r with
  | nil => simp [rowSet, rowGet, List.find?, h']
  | cons p rest ih =>
    by_cases hp : p.1 = k
    · subst hp
      simp only [rowSet, if_pos rfl]
      simp [rowGet, List.find?, h']
    · simp only [rowSet, if_neg hp]
      by_cases hp' : p.1 = k'
      · simp [rowGet, List.find?, hp']
      · simpa [rowGet, List.find?, hp'] using ih

theorem find?_congr_pred {α : Type} (p q : α → Bool) (l : List α)
    (h : ∀ a, p a = q a) : l.find? p = l.find? q := by
  induction l with
  | nil => rfl
  | cons a rest ih =>
    by_cases ha : p a = true
    · rw [List.find?_cons_of_pos _ ha, List.find?_cons_of_pos _ (by rw [← h]; exact ha)]
    · rw [List.find?_cons_of_neg _ (by simpa using ha),
        List.find?_cons_of_neg _ (by rw [← h]; simpa using ha)]
      exact ih

theorem toNat_ofNat_valid (m : Nat) (h : m.isValidChar) : (Char.ofNat m).toNat = m := by
  rw [Char.ofNat, dif_pos h]
  rfl

theorem char_eq_iff_toNat (a b : Char) : a = b ↔ a.toNat = b.toNat := by
  constructor
  · intro h; rw [h]
  · intro h
    exact Char.ext (UInt32.ext h)

theorem jsWs_toNat (c : Char) :
    jsWs c = (decide (c.toNat = 32) || decide (c.toNat = 9) ||
      decide (c.toNat = 10) || decide (c.toNat = 13)) := by
  have v1 : (' ' : Char).toNat = 32 := rfl
  have v2 : ('\t' : Char).toNat = 9 := rfl
  have v3 : ('\n' : Char).toNat = 10 := rfl
  have v4 : ('\r' : Char).toNat = 13 := rfl
  have e1 : decide (c = ' ') = decide (c.toNat = 32) := by
    rw [decide_eq_decide, char_eq_iff_toNat, v1]
  have e2 : decide (c = '\t') = decide (c.toNat = 9) := by
    rw [decide_eq_decide, char_eq_iff_toNat, v2]
  have e3 : decide (c = '\n') = decide (c.toNat = 10) := by
    rw [decide_eq_decide, char_eq_iff_toNat, v3]
  have e4 : decide (c = '\r') = decide (c.toNat = 13) := by
    rw [decide_eq_decide, char_eq_iff_toNat, v4]
  unfold jsWs
  rw [e1, e2, e3, e4]

theorem jsWs_jsLowerChar (c : Char) : jsWs (jsLowerChar c) = jsWs c := by
  unfold jsLowerChar
  by_cases h : 65 ≤ c.toNat ∧ c.toNat ≤ 90
  · rw [if_pos h]
    have hv : (c.toNat + 32).isValidChar := by
      constructor
      omega
    have ht : (Char.ofNat (c.toNat + 32)).toNat = c.toNat + 32 := toNat_ofNat_valid _ hv
    rw [jsWs_toNat, jsWs_toNat, ht]
    have a1 : ¬ (c.toNat + 32 = 32) := by omega
    have a2 : ¬ (c.toNat + 32 = 9) := by omega
    have a3 : ¬ (c.toNat + 32 = 10) := by omega
    have a4 : ¬ (c.toNat + 32 = 13) := by omega
    have b1 : ¬ (c.toNat = 32) := by omega
    have b2 : ¬ (c.toNat = 9) := by omega
    have b3 : ¬ (c.toNat = 10) := by omega
    have b4 : ¬ (c.toNat = 13) := by omega
    simp [a1, a2, a3, a4, b1, b2, b3, b4]
  · rw [if_neg h]

theorem map_dropWhile_comm {α β : Type} (f : α → β) (p : α → Bool) (q : β → Bool)
    (h : ∀ a, q (f a) = p a) (l : List α) :
    List.map f (List.dropWhile p l) = List.dropWhile q (List.map f l) := by
  induction l with
  | nil => rfl
  | cons a rest ih =>
    by_cases ha : p a = true
    · rw [List.dropWhile_cons_of_pos ha, List.map_cons,
        List.dropWhile_cons_of_pos (by rw [h]; exact ha)]
      exact ih
    · rw [List.dropWhile_cons_of_neg (by simpa using ha), List.map_cons,
        List.dropWhile_cons_of_neg (by rw [h]; simpa using ha)]

theorem jsLower_jsTrim_comm (s : String) : jsTrim (jsLower s) = jsLower (jsTrim s) := by
  unfold jsTrim jsLower jsTrimList
  congr 1
  rw [← map_dropWhile_comm jsLowerChar jsWs jsWs jsWs_jsLowerChar s.data, ← List.map_reverse,
    ← map_dropWhile_comm jsLowerChar jsWs jsWs jsWs_jsLowerChar, ← List.map_reverse]

theorem jsStrictEq_toString {v w : Value} (h : jsStrictEq v w = true) :
    jsToString v = jsToString w := by
  cases v <;> cases w <;> simp_all [jsStrictEq]
  case vNum.vNum a b =>
    cases a <;> cases b <;> simp_all

theorem tierMatch_eq_ciTrimEq (v w : Value) : tierMatch v w = ciTrimEq v w := by
  by_cases hci : jsTrim (jsLower (jsToString v)) = jsTrim (jsLower (jsToString w))
  · simp [tierMatch, ciTrimEq, hci]
  · have h1 : jsStrictEq v w = false := by
      by_contra hb
      have : jsStrictEq v w = true := by
        cases hs : jsStrictEq v w
        · exact absurd hs hb
        · rfl
      exact hci (by rw [jsStrictEq_toString this])
    have h2 : ¬ (jsTrim (jsToString v) = jsTrim (jsToString w)) := by
      intro ht
      apply hci
      rw [jsLower_jsTrim_comm, jsLower_jsTrim_comm, ht]
    simp [tierMatch, ciTrimEq, h1, h2, hci]

/-- C1 counterexample: with main-table rows `K="a"` then `K="A"` and key
`"A"`, the row `K="A"` is an exact (strict-equality) match and the earlier row
`K="a"` is not, yet the lookup returns the earlier row's value `"1"`, not the
exact match's `"2"` — refuting the claim that tier 1 is exhausted over the
whole table before tier 2/3 and that an exact match anywhere beats an earlier
fuzzy match. -/
theorem xlookup_tier_order_counterexample :
    rowGet (applyTransform (fun _ _ => Except.error "")
        [[("K", vStr "a"), ("V", vStr "1")], [("K", vStr "A"), ("V", vStr "2")]] []
        [("X", vStr "A")]
        ⟨"t1", TransformType.xlookup, "out", ["X"], none, some "main", some "K", some "V"⟩).1
      "out" = vStr "1" ∧
    jsStrictEq (rowGet [("K", vStr "A"), ("V", vStr "2")] "K") (vStr "A") = true ∧
    jsStrictEq (rowGet [("K", vStr "a"), ("V", vStr "1")] "K") (vStr "A") = false ∧
    vStr "1" ≠ vStr "2" := by
  refine ⟨by decide, by decide, by decide, by decide⟩

/-- C1 (amended): the lookup makes a single pass over the target table; a row
qualifies when any of the three equality tests holds, and since strict
equality implies trimmed equality implies case-insensitive trimmed equality,
the per-row test collapses to case-insensitive trimmed equality of string
forms.  The first qualifying row in table order supplies the result, so an
approximate match earlier in the table beats an exact match later. -/
theorem xlookup_single_pass_collapse :
    (∀ v w : Value, tierMatch v w = ciTrimEq v w) ∧
    (∀ (tbl : List Row) (lc : String) (key : Value),
      tbl.find? (fun rr => tierMatch (rowGet rr lc) key) =
        tbl.find? (fun rr => ciTrimEq (rowGet rr lc) key)) := by
  refine ⟨tierMatch_eq_ciTrimEq, fun tbl lc key => ?_⟩
  exact find?_congr_pred _ _ tbl (fun rr => tierMatch_eq_ciTrimEq _ _)

theorem applyTransform_xlookup_eq (eval : HostEval) (snap : List Row)
    (sheets : List SupportSheet) (r : Row) (t : Transformation)
    (ls lc rc sc0 : String) (rest : List String)
    (hty : t.type = TransformType.xlookup)
    (hls : t.lookupSheet = some ls) (hlc : t.lookupColumn = some lc)
    (hrc : t.returnColumn = some rc) (hsc : t.sourceColumns = sc0 :: rest)
    (hne : ls ≠ "" ∧ lc ≠ "" ∧ rc ≠ "") :
    (applyTransform eval snap sheets r t).1 =
      rowSet r t.newColumnName
        (xlookupWriteValue
          (if ls = "main" then some snap
           else (sheets.find? (fun sh => decide (sh.id = ls))).map SupportSheet.data)
          lc rc (rowGet r sc0)) := by
  have hw : transformWrite eval snap sheets r t =
      some (xlookupWriteValue
        (if ls = "main" then some snap
         else (sheets.find? (fun sh => decide (sh.id = ls))).map SupportSheet.data)
        lc rc (rowGet r sc0), none) := by
    simp only [transformWrite, hty, hls, hlc, hrc, hsc]
    rw [if_pos hne]
    by_cases hm : ls = "main"
    · rw [if_pos hm, if_pos hm]
      cases hf : snap.find? (fun rr => tierMatch (rowGet rr lc) (rowGet r sc0)) with
      | none => simp [xlookupWriteValue, hf]
      | some fr =>
        by_cases hn : rowGet fr rc = vNull
        · simp [xlookupWriteValue, hf, hn]
        · simp [xlookupWriteValue, hf, hn]
    · rw [if_neg hm, if_neg hm]
      cases hs : sheets.find? (fun sh => decide (sh.id = ls)) with
      | none => simp [xlookupWriteValue, hs]
      | some sh =>
        cases hf : sh.data.find? (fun rr => tierMatch (rowGet rr lc) (rowGet r sc0)) with
        | none => simp [xlookupWriteValue, hs, hf]
        | some fr =>
          by_cases hn : rowGet fr rc = vNull
          · simp [xlookupWriteValue, hs, hf, hn]
          · simp [xlookupWriteValue, hs, hf, hn]
  unfold applyTransform
  rw [hw]

/-- C4 counterexample: the support sheet exists and its row `k="a"` is an
exact match for the key `"a"`, but its return-column value is null, and the
code still writes the diagnostic sentinel — refuting the claim that the
sentinel appears exactly when no row matches at any tier or the dataset is
missing, and that a matched row's return value is always copied verbatim. -/
theorem xlookup_null_return_counterexample :
    rowGet (applyTransform (fun _ _ => Except.error "")
        [] [⟨"s2", "S2", [[("k", vStr "a"), ("v", vNull)]], ["k", "v"]⟩]
        [("K", vStr "a")]
        ⟨"t4", TransformType.xlookup, "out", ["K"], none, some "s2", some "k", some "v"⟩).1
      "out" = vStr "Not found: \"a\"" ∧
    tierMatch (rowGet [("k", vStr "a"), ("v", vNull)] "k") (vStr "a") = true ∧
    jsStrictEq (rowGet [("k", vStr "a"), ("v", vNull)] "k") (vStr "a") = true := by
  refine ⟨by decide, by decide, by decide⟩

/-- C4 (amended): for a fully configured xlookup, the output field receives
the literal diagnostic `Not found: "<key>"` exactly when the final lookup
result is null — that is, when no row of the target tier-matches the key,
when the named target dataset no longer exists, or when the first matching
row's return-column value is itself null; in every other case the matched
row's return-column value is copied verbatim with no coercion. -/
theorem xlookup_sentinel_characterization (eval : HostEval) (snap : List Row)
    (sheets : List SupportSheet) (r : Row) (t : Transformation)
    (ls lc rc sc0 : String) (rest : List String)
    (hty : t.type = TransformType.xlookup)
    (hls : t.lookupSheet = some ls) (hlc : t.lookupColumn = some lc)
    (hrc : t.returnColumn = some rc) (hsc : t.sourceColumns = sc0 :: rest)
    (hne : ls ≠ "" ∧ lc ≠ "" ∧ rc ≠ "") :
    rowGet (applyTransform eval snap sheets r t).1 t.newColumnName =
      xlookupWriteValue
        (if ls = "main" then some snap
         else (sheets.find? (fun sh => decide (sh.id = ls))).map SupportSheet.data)
        lc rc (rowGet r sc0) ∧
    ((if ls = "main" then some snap
      else (sheets.find? (fun sh => decide (sh.id = ls))).map SupportSheet.data) = none →
      rowGet (applyTransform eval snap sheets r t).1 t.newColumnName =
        vStr (notFoundMsg (rowGet r sc0))) ∧
    (∀ tbl, (if ls = "main" then some snap
      else (sheets.find? (fun sh => decide (sh.id = ls))).map SupportSheet.data) = some tbl →
      tbl.find? (fun rr => tierMatch (rowGet rr lc) (rowGet r sc0)) = none →
      rowGet (applyTransform eval snap sheets r t).1 t.newColumnName =
        vStr (notFoundMsg (rowGet r sc0))) ∧
    (∀ tbl fr, (if ls = "main" then some snap
      else (sheets.find? (fun sh => decide (sh.id = ls))).map SupportSheet.data) = some tbl →
      tbl.find? (fun rr => tierMatch (rowGet rr lc) (rowGet r sc0)) = some fr →
      rowGet fr rc ≠ vNull →
      rowGet (applyTransform eval snap sheets r t).1 t.newColumnName = rowGet fr rc) := by
  have h0 := applyTransform_xlookup_eq eval snap sheets r t ls lc rc sc0 rest
    hty hls hlc hrc hsc hne
  have hg : rowGet (applyTransform eval snap sheets r t).1 t.newColumnName =
      xlookupWriteValue
        (if ls = "main" then some snap
         else (sheets.find? (fun sh => decide (sh.id = ls))).map SupportSheet.data)
        lc rc (rowGet r sc0) := by
    rw [h0, rowGet_rowSet_self]
  refine ⟨hg, ?_, ?_, ?_⟩
  · intro hn
    rw [hg, hn]
    rfl
  · intro tbl htbl hf
    rw [hg, htbl]
    simp [xlookupWriteValue, hf]
  · intro tbl fr htbl hf hnn
    rw [hg, htbl]
    simp [xlookupWriteValue, hf, hnn]

/-- The row component of the transform fold (the engine's row after a list of
transformations), with the error accumulator dropped. -/
def rowAfterTransforms (eval : HostEval) (snap : List Row) (sheets : List SupportSheet)
    (ts : List Transformation) (r : Row) : Row :=
  ts.foldl (fun rr t => (applyTransform eval snap sheets rr t).1) r

theorem runTransformsRow_fst (eval : HostEval) (snap : List Row)
    (sheets : List SupportSheet) (ts : List Transformation) (r : Row) :
    (runTransformsRow eval snap sheets ts r).1 = rowAfterTransforms eval snap sheets ts r := by
  suffices h : ∀ e, (ts.foldl
      (fun acc t =>
        match applyTransform eval snap sheets acc.1 t with
        | (r', some m) => (r', acc.2 ++ [m])
        | (r', none) => (r', acc.2))
      (r, e)).1 = rowAfterTransforms eval snap sheets ts r by
    exact h []
  induction ts generalizing r with
  | nil => intro e; rfl
  | cons t ts' ih =>
    intro e
    simp only [List.foldl_cons, rowAfterTransforms]
    cases hap : applyTransform eval snap sheets r t with
    | mk r' e' =>
      cases e' with
      | none =>
        simp only [hap]
        simpa [rowAfterTransforms, hap] using ih r' e
      | some m =>
        simp only [hap]
        simpa [rowAfterTransforms, hap] using ih r' (e ++ [m])

theorem rowAfterTransforms_append (eval : HostEval) (snap : List Row)
    (sheets : List SupportSheet) (ts1 ts2 : List Transformation) (r : Row) :
    rowAfterTransforms eval snap sheets (ts1 ++ ts2) r =
      rowAfterTransforms eval snap sheets ts2 (rowAfterTransforms eval snap sheets ts1 r) := by
  unfold rowAfterTransforms
  exact List.foldl_append _ _ _ _

/-- C3: an xlookup targeting the main table, at any position `ts1 ++ [t]` of
the transformation list, writes the value obtained by searching
`filterData filters configured` — the rows exactly as they stand after
filtering and before any transformation of the run — and that value depends
on the earlier transformations only through the accumulated key, so the
consulted snapshot is the same wherever the step sits in the pass; the
embedding threads the snapshot as an untouched argument, so no transformation
mutates it. -/
theorem xlookup_main_snapshot (eval : HostEval) (sheets : List SupportSheet)
    (filters : List RowFilter) (configured : List Row) (ts1 : List Transformation)
    (t : Transformation) (lc rc sc0 : String) (rest : List String) (r : Row)
    (hty : t.type = TransformType.xlookup)
    (hls : t.lookupSheet = some "main") (hlc : t.lookupColumn = some lc)
    (hrc : t.returnColumn = some rc) (hsc : t.sourceColumns = sc0 :: rest)
    (hne : lc ≠ "" ∧ rc ≠ "") :
    rowGet ((runTransformsRow eval (filterData filters configured) sheets (ts1 ++ [t]) r).1)
        t.newColumnName =
      xlookupWriteValue (some (filterData filters configured)) lc rc
        (rowGet ((runTransformsRow eval (filterData filters configured) sheets ts1 r).1) sc0) ∧
    (∀ (ts1' : List Transformation) (r' : Row),
      rowGet ((runTransformsRow eval (filterData filters configured) sheets ts1' r').1) sc0 =
        rowGet ((runTransformsRow eval (filterData filters configured) sheets ts1 r).1) sc0 →
      rowGet ((runTransformsRow eval (filterData filters configured) sheets (ts1' ++ [t]) r').1)
          t.newColumnName =
        rowGet ((runTransformsRow eval (filterData filters configured) sheets (ts1 ++ [t]) r).1)
          t.newColumnName) := by
  have key : ∀ (ts0 : List Transformation) (r0 : Row),
      rowGet ((runTransformsRow eval (filterData filters configured) sheets (ts0 ++ [t]) r0).1)
          t.newColumnName =
        xlookupWriteValue (some (filterData filters configured)) lc rc
          (rowGet ((runTransformsRow eval (filterData filters configured) sheets ts0 r0).1) sc0) := by
    intro ts0 r0
    rw [runTransformsRow_fst, runTransformsRow_fst, rowAfterTransforms_append]
    have happ := applyTransform_xlookup_eq eval (filterData filters configured) sheets
      (rowAfterTransforms eval (filterData filters configured) sheets ts0 r0) t
      "main" lc rc sc0 rest hty hls hlc hrc hsc ⟨by decide, hne.1, hne.2⟩
    have hstep : rowAfterTransforms eval (filterData filters configured) sheets [t]
        (rowAfterTransforms eval (filterData filters configured) sheets ts0 r0) =
        (applyTransform eval (filterData filters configured) sheets
          (rowAfterTransforms eval (filterData filters configured) sheets ts0 r0) t).1 := rfl
    rw [hstep, happ, if_pos rfl, rowGet_rowSet_self]
  refine ⟨key ts1 r, fun ts1' r' hk => ?_⟩
  rw [key ts1' r', key ts1 r, hk]

/-- C3 witness at a one-row, one-filter configuration with an empty prefix. -/
theorem xlookup_main_snapshot_witness :
    Transformation.type ⟨"tw", TransformType.xlookup, "res", ["A"], none, some "main", some "A", some "B"⟩ =
      TransformType.xlookup ∧
    Transformation.lookupSheet ⟨"tw", TransformType.xlookup, "res", ["A"], none, some "main", some "A", some "B"⟩ =
      some "main" ∧
    Transformation.lookupColumn ⟨"tw", TransformType.xlookup, "res", ["A"], none, some "main", some "A", some "B"⟩ =
      some "A" ∧
    Transformation.returnColumn ⟨"tw", TransformType.xlookup, "res", ["A"], none, some "main", some "A", some "B"⟩ =
      some "B" ∧
    Transformation.sourceColumns ⟨"tw", TransformType.xlookup, "res", ["A"], none, some "main", some "A", some "B"⟩ =
      "A" :: [] ∧
    ("A" ≠ "" ∧ "B" ≠ "") ∧
    (rowGet ((runTransformsRow (fun _ _ => Except.error "err")
        (filterData [] [[("A", vStr "p"), ("B", vStr "q")]]) [] ([] ++
          [⟨"tw", TransformType.xlookup, "res", ["A"], none, some "main", some "A", some "B"⟩])
        [("A", vStr "p"), ("B", vStr "q")]).1) "res" =
      xlookupWriteValue (some (filterData [] [[("A", vStr "p"), ("B", vStr "q")]])) "A" "B"
        (rowGet ((runTransformsRow (fun _ _ => Except.error "err")
          (filterData [] [[("A", vStr "p"), ("B", vStr "q")]]) [] []
          [("A", vStr "p"), ("B", vStr "q")]).1) "A")) := by
  refine ⟨rfl, rfl, rfl, rfl, rfl, by decide, ?_⟩
  exact (xlookup_main_snapshot (fun _ _ => Except.error "err") [] []
    [[("A", vStr "p"), ("B", vStr "q")]] []
    ⟨"tw", TransformType.xlookup, "res", ["A"], none, some "main", some "A", some "B"⟩
    "A" "B" "A" [] [("A", vStr "p"), ("B", vStr "q")]
    rfl rfl rfl rfl rfl (by decide)).1

/-- C4 witness: the sentinel/copy characterization applied at a one-row main
table where the key matches exactly and the return value is non-null. -/
theorem xlookup_sentinel_characterization_witness :
    Transformation.type ⟨"tv", TransformType.xlookup, "res", ["A"], none, some "main", some "A", some "B"⟩ =
      TransformType.xlookup ∧
    Transformation.lookupSheet ⟨"tv", TransformType.xlookup, "res", ["A"], none, some "main", some "A", some "B"⟩ =
      some "main" ∧
    Transformation.lookupColumn ⟨"tv", TransformType.xlookup, "res", ["A"], none, some "main", some "A", some "B"⟩ =
      some "A" ∧
    Transformation.returnColumn ⟨"tv", TransformType.xlookup, "res", ["A"], none, some "main", some "A", some "B"⟩ =
      some "B" ∧
    Transformation.sourceColumns ⟨"tv", TransformType.xlookup, "res", ["A"], none, some "main", some "A", some "B"⟩ =
      "A" :: [] ∧
    ("main" ≠ "" ∧ "A" ≠ "" ∧ "B" ≠ "") ∧
    rowGet (applyTransform (fun _ _ => Except.error "err")
        [[("A", vStr "p"), ("B", vStr "q")]] [] [("A", vStr "p")]
        ⟨"tv", TransformType.xlookup, "res", ["A"], none, some "main", some "A", some "B"⟩).1
      "res" =
      xlookupWriteValue
        (if "main" = "main" then some [[("A", vStr "p"), ("B", vStr "q")]]
         else (List.find? (fun sh => decide (SupportSheet.id sh = "main")) []).map SupportSheet.data)
        "A" "B" (rowGet [("A", vStr "p")] "A") := by
  refine ⟨rfl, rfl, rfl, rfl, rfl, by decide, ?_⟩
  exact (xlookup_sentinel_characterization (fun _ _ => Except.error "err")
    [[("A", vStr "p"), ("B", vStr "q")]] [] [("A", vStr "p")]
    ⟨"tv", TransformType.xlookup, "res", ["A"], none, some "main", some "A", some "B"⟩
    "main" "A" "B" "A" [] rfl rfl rfl rfl rfl (by decide)).1

/-- Two rows are observationally equal when every column reads the same value. -/
def rowEquiv (r r' : Row) : Prop := ∀ c, rowGet r c = rowGet r' c

theorem transformWrite_congr_sources (eval : HostEval) (snap : List Row)
    (sheets : List SupportSheet) (r r' : Row) (t : Transformation)
    (hty : t.type ≠ TransformType.custom)
    (h : ∀ c ∈ t.sourceColumns, rowGet r c = rowGet r' c) :
    transformWrite eval snap sheets r t = transformWrite eval snap sheets r' t := by
  cases hT : t.type with
  | custom => exact absurd hT hty
  | text => simp only [transformWrite, hT]
  | multiply =>
    simp only [transformWrite, hT]
    cases hsc : t.sourceColumns with
    | nil => rfl
    | cons s0 tl =>
      cases tl with
      | nil => rfl
      | cons s1 tl2 =>
        cases tl2 with
        | nil =>
          simp only [h s0 (by rw [hsc]; simp), h s1 (by rw [hsc]; simp)]
        | cons _ _ => rfl
  | add =>
    simp only [transformWrite, hT]
    cases hsc : t.sourceColumns with
    | nil => rfl
    | cons s0 tl =>
      cases tl with
      | nil => rfl
      | cons s1 tl2 =>
        cases tl2 with
        | nil =>
          simp only [h s0 (by rw [hsc]; simp), h s1 (by rw [hsc]; simp)]
        | cons _ _ => rfl
  | subtract =>
    simp only [transformWrite, hT]
    cases hsc : t.sourceColumns with
    | nil => rfl
    | cons s0 tl =>
      cases tl with
      | nil => rfl
      | cons s1 tl2 =>
        cases tl2 with
        | nil =>
          simp only [h s0 (by rw [hsc]; simp), h s1 (by rw [hsc]; simp)]
        | cons _ _ => rfl
  | divide =>
    simp only [transformWrite, hT]
    cases hsc : t.sourceColumns with
    | nil => rfl
    | cons s0 tl =>
      cases tl with
      | nil => rfl
      | cons s1 tl2 =>
        cases tl2 with
        | nil =>
          simp only [h s0 (by rw [hsc]; simp), h s1 (by rw [hsc]; simp)]
        | cons _ _ => rfl
  | concat =>
    simp only [transformWrite, hT]
    have : t.sourceColumns.map (fun c =>
        match rowGet r c with
        | vNull => ""
        | vUndef => ""
        | v => jsToString v) =
      t.sourceColumns.map (fun c =>
        match rowGet r' c with
        | vNull => ""
        | vUndef => ""
        | v => jsToString v) := by
      apply List.map_congr_left
      intro c hc
      rw [h c hc]
    rw [this]
  | xlookup =>
    simp only [transformWrite, hT]
    cases hls : t.lookupSheet with
    | none =>
      cases t.lookupColumn <;> cases t.returnColumn <;> cases t.sourceColumns <;> rfl
    | some ls =>
      cases hlc : t.lookupColumn with
      | none => cases t.returnColumn <;> cases t.sourceColumns <;> rfl
      | some lc =>
        cases hrc : t.returnColumn with
        | none => cases t.sourceColumns <;> rfl
        | some rc =>
          cases hsc : t.sourceColumns with
          | nil => rfl
          | cons sc0 rest =>
            simp only [h sc0 (by rw [hsc]; simp)]

theorem rowEquiv_rowSet {r r' : Row} (h : rowEquiv r r') (k : String) (v : Value) :
    rowEquiv (rowSet r k v) (rowSet r' k v) := by
  intro c
  by_cases hc : c = k
  · subst hc
    rw [rowGet_rowSet_self, rowGet_rowSet_self]
  · rw [rowGet_rowSet_ne _ _ _ _ hc, rowGet_rowSet_ne _ _ _ _ hc]
    exact h c

theorem applyTransform_fst_equiv (eval : HostEval) (snap : List Row)
    (sheets : List SupportSheet) {r r' : Row} (t : Transformation)
    (hty : t.type ≠ TransformType.custom) (h : rowEquiv r r') :
    rowEquiv (applyTransform eval snap sheets r t).1 (applyTransform eval snap sheets r' t).1 := by
  have hw := transformWrite_congr_sources eval snap sheets r r' t hty (fun c _ => h c)
  unfold applyTransform
  rw [← hw]
  cases hw' : transformWrite eval snap sheets r t with
  | none => exact h
  | some p => exact rowEquiv_rowSet h t.newColumnName p.1

theorem applyTransform_eq_none (eval : HostEval) (snap : List Row)
    (sheets : List SupportSheet) (r : Row) (t : Transformation)
    (hw : transformWrite eval snap sheets r t = none) :
    applyTransform eval snap sheets r t = (r, none) := by
  unfold applyTransform
  rw [hw]

theorem applyTransform_eq_some (eval : HostEval) (snap : List Row)
    (sheets : List SupportSheet) (r : Row) (t : Transformation) (v : Value) (e : Option String)
    (hw : transformWrite eval snap sheets r t = some (v, e)) :
    applyTransform eval snap sheets r t = (rowSet r t.newColumnName v, e) := by
  unfold applyTransform
  rw [hw]

theorem applyTransform_swap (eval : HostEval) (snap : List Row)
    (sheets : List SupportSheet) (r : Row) (t1 t2 : Transformation)
    (h1 : t1.type ≠ TransformType.custom) (h2 : t2.type ≠ TransformType.custom)
    (hnn : t1.newColumnName ≠ t2.newColumnName)
    (h12 : t1.newColumnName ∉ t2.sourceColumns)
    (h21 : t2.newColumnName ∉ t1.sourceColumns) :
    rowEquiv (applyTransform eval snap sheets (applyTransform eval snap sheets r t1).1 t2).1
      (applyTransform eval snap sheets (applyTransform eval snap sheets r t2).1 t1).1 := by
  have e1 : transformWrite eval snap sheets (applyTransform eval snap sheets r t2).1 t1 =
      transformWrite eval snap sheets r t1 := by
    apply transformWrite_congr_sources eval snap sheets _ _ _ h1
    intro c hc
    unfold applyTransform
    cases hw2 : transformWrite eval snap sheets r t2 with
    | none => rfl
    | some p =>
      exact rowGet_rowSet_ne _ _ _ _ (fun hcc => h21 (hcc ▸ hc))
  have e2 : transformWrite eval snap sheets (applyTransform eval snap sheets r t1).1 t2 =
      transformWrite eval snap sheets r t2 := by
    apply transformWrite_congr_sources eval snap sheets _ _ _ h2
    intro c hc
    unfold applyTransform
    cases hw1 : transformWrite eval snap sheets r t1 with
    | none => rfl
    | some p =>
      exact rowGet_rowSet_ne _ _ _ _ (fun hcc => h12 (hcc ▸ hc))
  cases hw1 : transformWrite eval snap sheets r t1 with
  | none =>
    have a1 := applyTransform_eq_none eval snap sheets r t1 hw1
    cases hw2 : transformWrite eval snap sheets r t2 with
    | none =>
      have a2 := applyTransform_eq_none eval snap sheets r t2 hw2
      simp only [a1, a2]
      exact fun c => rfl
    | some p2 =>
      obtain ⟨v2, m2⟩ := p2
      have a2 := applyTransform_eq_some eval snap sheets r t2 v2 m2 hw2
      rw [a1] at e2
      simp only at e2
      rw [a2] at e1
      simp only at e1
      have a3 := applyTransform_eq_none eval snap sheets (rowSet r t2.newColumnName v2) t1
        (e1.trans hw1)
      simp only [a1, a2, a3]
      exact fun c => rfl
  | some p1 =>
    obtain ⟨v1, m1⟩ := p1
    have a1 := applyTransform_eq_some eval snap sheets r t1 v1 m1 hw1
    cases hw2 : transformWrite eval snap sheets r t2 with
    | none =>
      have a2 := applyTransform_eq_none eval snap sheets r t2 hw2
      rw [a1] at e2
      simp only at e2
      rw [a2] at e1
      simp only at e1
      have a4 := applyTransform_eq_none eval snap sheets (rowSet r t1.newColumnName v1) t2
        (e2.trans hw2)
      simp only [a1, a2, a4]
      exact fun c => rfl
    | some p2 =>
      obtain ⟨v2, m2⟩ := p2
      have a2 := applyTransform_eq_some eval snap sheets r t2 v2 m2 hw2
      rw [a1] at e2
      simp only at e2
      rw [a2] at e1
      simp only at e1
      have a3 := applyTransform_eq_some eval snap sheets (rowSet r t2.newColumnName v2) t1 v1 m1
        (e1.trans hw1)
      have a4 := applyTransform_eq_some eval snap sheets (rowSet r t1.newColumnName v1) t2 v2 m2
        (e2.trans hw2)
      simp only [a1, a2, a3, a4]
      intro c
      by_cases hc1 : c = t1.newColumnName
      · subst hc1
        rw [rowGet_rowSet_ne _ _ _ _ hnn, rowGet_rowSet_self, rowGet_rowSet_self]
      · by_cases hc2 : c = t2.newColumnName
        · subst hc2
          rw [rowGet_rowSet_self, rowGet_rowSet_ne _ _ _ _ (fun hcc => hnn hcc.symm),
            rowGet_rowSet_self]
        · rw [rowGet_rowSet_ne _ _ _ _ hc2, rowGet_rowSet_ne _ _ _ _ hc1,
            rowGet_rowSet_ne _ _ _ _ hc1, rowGet_rowSet_ne _ _ _ _ hc2]

theorem rowAfterTransforms_equiv (eval : HostEval) (snap : List Row)
    (sheets : List SupportSheet) (ts : List Transformation)
    (hts : ∀ t ∈ ts, t.type ≠ TransformType.custom) {r r' : Row} (h : rowEquiv r r') :
    rowEquiv (rowAfterTransforms eval snap sheets ts r)
      (rowAfterTransforms eval snap sheets ts r') := by
  induction ts generalizing r r' with
  | nil => exact h
  | cons t ts' ih =>
    have hstep := applyTransform_fst_equiv eval snap sheets t (hts t (by simp)) h
    exact ih (fun t' ht' => hts t' (by simp [ht'])) hstep

theorem forall₂_map_same {α β : Type} (P : β → β → Prop) (f g : α → β) (l : List α)
    (h : ∀ x ∈ l, P (f x) (g x)) : List.Forall₂ P (l.map f) (l.map g) := by
  induction l with
  | nil => exact List.Forall₂.nil
  | cons a rest ih =>
    exact List.Forall₂.cons (h a (by simp)) (ih (fun x hx => h x (by simp [hx])))

/-- C9 (amended): swapping two adjacent non-custom transformations whose
source columns and target columns are mutually disjoint yields pipeline
output that reads identically at every column of every row, provided no
custom-formula transformation follows the swapped pair (a later custom step
observes the row's field insertion order through its scope building and
identifier rewriting, and so can distinguish the two orders). -/
theorem swap_disjoint_transforms (eval : HostEval) (sheets : List SupportSheet)
    (filters : List RowFilter) (configured : List Row)
    (pre post : List Transformation) (t1 t2 : Transformation)
    (h1 : t1.type ≠ TransformType.custom) (h2 : t2.type ≠ TransformType.custom)
    (hpost : ∀ t ∈ post, t.type ≠ TransformType.custom)
    (hnn : t1.newColumnName ≠ t2.newColumnName)
    (h12 : t1.newColumnName ∉ t2.sourceColumns)
    (h21 : t2.newColumnName ∉ t1.sourceColumns)
    (_hss : ∀ c ∈ t1.sourceColumns, c ∉ t2.sourceColumns) :
    List.Forall₂ rowEquiv
      (processData eval sheets filters (pre ++ t1 :: t2 :: post) configured).1
      (processData eval sheets filters (pre ++ t2 :: t1 :: post) configured).1 := by
  unfold processData runTransforms
  simp only [List.map_map]
  apply forall₂_map_same
  intro r _
  simp only [Function.comp]
  rw [runTransformsRow_fst, runTransformsRow_fst]
  have hsplit1 : pre ++ t1 :: t2 :: post = (pre ++ [t1, t2]) ++ post := by simp
  have hsplit2 : pre ++ t2 :: t1 :: post = (pre ++ [t2, t1]) ++ post := by simp
  rw [hsplit1, hsplit2, rowAfterTransforms_append, rowAfterTransforms_append,
    rowAfterTransforms_append, rowAfterTransforms_append]
  apply rowAfterTransforms_equiv eval _ sheets post hpost
  exact applyTransform_swap eval _ sheets _ t1 t2 h1 h2 hnn h12 h21

/-- Model of the host JavaScript evaluation
`new Function(keys..., "return " ++ body)(values...)` restricted to bodies
that are a single identifier: the identifier returns its bound scope value,
and an unbound identifier throws a ReferenceError.  Used only to instantiate
the engine's abstract evaluator parameter on concrete inputs whose formulas
have this shape. -/
def evalIdent : HostEval := fun ctx f =>
  if (rowKeys ctx).contains f then .ok (rowGet ctx f)
  else .error ("ReferenceError: " ++ f ++ " is not defined")

/-- C9 counterexample: the first two transformations are mutually disjoint
(`a_b` written from `one`; `a b` written from nothing), yet swapping them
changes the pipeline output, because the third (custom) transformation's
formula `a_b` is resolved against a scope in which the fields `a_b` and
`a b` collide onto the same safe identifier and the later-inserted field
wins — refuting the claim for arbitrary transformation lists. -/
theorem swap_disjoint_counterexample :
    ("a_b" : String) ≠ "a b" ∧
    ("a_b" : String) ∉ (([] : List String)) ∧
    ("a b" : String) ∉ (["one"] : List String) ∧
    rowGet (((processData evalIdent [] []
        [⟨"t1", TransformType.concat, "a_b", ["one"], none, none, none, none⟩,
         ⟨"t2", TransformType.concat, "a b", [], none, none, none, none⟩,
         ⟨"t3", TransformType.custom, "out", [], some "a_b", none, none, none⟩]
        [[("one", vStr "1")]]).1).getD 0 []) "out" = vStr "" ∧
    rowGet (((processData evalIdent [] []
        [⟨"t2", TransformType.concat, "a b", [], none, none, none, none⟩,
         ⟨"t1", TransformType.concat, "a_b", ["one"], none, none, none, none⟩,
         ⟨"t3", TransformType.custom, "out", [], some "a_b", none, none, none⟩]
        [[("one", vStr "1")]]).1).getD 0 []) "out" = vNum (JsNum.fin 1) ∧
    vStr "" ≠ vNum (JsNum.fin 1) := by
  refine ⟨by decide, by decide, by decide, by decide, by decide, by decide⟩

/-- C9 witness: the amended swap theorem applied to two disjoint concat
transformations with no custom step following. -/
theorem swap_disjoint_transforms_witness :
    (Transformation.type ⟨"t1", TransformType.concat, "a_b", ["one"], none, none, none, none⟩ ≠
      TransformType.custom) ∧
    (Transformation.type ⟨"t2", TransformType.concat, "c d", [], none, none, none, none⟩ ≠
      TransformType.custom) ∧
    (∀ t ∈ ([] : List Transformation), Transformation.type t ≠ TransformType.custom) ∧
    (("a_b" : String) ≠ "c d") ∧
    (("a_b" : String) ∉ ([] : List String)) ∧
    (("c d" : String) ∉ (["one"] : List String)) ∧
    (∀ c ∈ (["one"] : List String), c ∉ ([] : List String)) ∧
    List.Forall₂ rowEquiv
      (processData evalIdent [] []
        ([] ++ ⟨"t1", TransformType.concat, "a_b", ["one"], none, none, none, none⟩ ::
          ⟨"t2", TransformType.concat, "c d", [], none, none, none, none⟩ :: [])
        [[("one", vStr "1")]]).1
      (processData evalIdent [] []
        ([] ++ ⟨"t2", TransformType.concat, "c d", [], none, none, none, none⟩ ::
          ⟨"t1", TransformType.concat, "a_b", ["one"], none, none, none, none⟩ :: [])
        [[("one", vStr "1")]]).1 := by
  refine ⟨by decide, by decide, by decide, by decide, by decide, by decide, by decide, ?_⟩
  exact swap_disjoint_transforms evalIdent [] [] [[("one", vStr "1")]] [] []
    ⟨"t1", TransformType.concat, "a_b", ["one"], none, none, none, none⟩
    ⟨"t2", TransformType.concat, "c d", [], none, none, none, none⟩
    (by decide) (by decide) (by decide) (by decide) (by decide) (by decide) (by decide)

theorem runTransformsRow_err_acc (eval : HostEval) (snap : List Row)
    (sheets : List SupportSheet) (ts : List Transformation) (r : Row) (e : List String) :
    ts.foldl
      (fun acc t =>
        match applyTransform eval snap sheets acc.1 t with
        | (r', some m) => (r', acc.2 ++ [m])
        | (r', none) => (r', acc.2))
      (r, e) =
    ((runTransformsRow eval snap sheets ts r).1,
      e ++ (runTransformsRow eval snap sheets ts r).2) := by
  induction ts generalizing r e with
  | nil => simp [runTransformsRow]
  | cons t ts' ih =>
    simp only [List.foldl_cons, runTransformsRow]
    cases hap : applyTransform eval snap sheets r t with
    | mk r' e' =>
      cases e' with
      | none =>
        simp only [hap]
        rw [ih r' e, ih r' []]
        simp [runTransformsRow]
      | some m =>
        simp only [hap]
        rw [ih r' (e ++ [m]), ih r' ([] ++ [m])]
        simp [runTransformsRow]

/-- C7: a failing custom-formula evaluation on a row writes the literal string
`Error` into the target field, contributes exactly one entry (its message) to
the run-scoped error list — so the error counter rises by exactly one and the
recorded last error is that message — and the fold simply continues with the
remaining transformations; the transform engine always returns one output row
per input row, so a formula failure never aborts the run. -/
theorem custom_formula_error_isolation (eval : HostEval) (snap : List Row)
    (sheets : List SupportSheet) (r : Row) (t : Transformation) (f msg : String)
    (hty : t.type = TransformType.custom) (hf : t.formula = some f) (hne : f ≠ "")
    (herr : eval (buildEvalContext r) (rewriteFormula r f) = Except.error msg) :
    applyTransform eval snap sheets r t = (rowSet r t.newColumnName (vStr "Error"), some msg) ∧
    rowGet (applyTransform eval snap sheets r t).1 t.newColumnName = vStr "Error" ∧
    (∀ rest : List Transformation,
      runTransformsRow eval snap sheets (t :: rest) r =
        ((runTransformsRow eval snap sheets rest (rowSet r t.newColumnName (vStr "Error"))).1,
          msg :: (runTransformsRow eval snap sheets rest (rowSet r t.newColumnName (vStr "Error"))).2)) ∧
    (∀ (ts : List Transformation) (rows : List Row),
      (runTransforms eval snap sheets ts rows).1.length = rows.length) := by
  have hw : transformWrite eval snap sheets r t = some (vStr "Error", some msg) := by
    simp only [transformWrite, hty, hf]
    rw [if_pos hne, herr]
  have ha : applyTransform eval snap sheets r t =
      (rowSet r t.newColumnName (vStr "Error"), some msg) := by
    unfold applyTransform
    rw [hw]
  refine ⟨ha, ?_, ?_, ?_⟩
  · rw [ha, rowGet_rowSet_self]
  · intro rest
    show (t :: rest).foldl _ (r, []) = _
    simp only [List.foldl_cons, ha]
    rw [runTransformsRow_err_acc]
    rfl
  · intro ts rows
    simp [runTransforms]

/-- C7 witness: a one-transform run whose evaluator always throws. -/
theorem custom_formula_error_isolation_witness :
    Transformation.type ⟨"tc", TransformType.custom, "out", [], some "x", none, none, none⟩ =
      TransformType.custom ∧
    Transformation.formula ⟨"tc", TransformType.custom, "out", [], some "x", none, none, none⟩ =
      some "x" ∧
    ("x" : String) ≠ "" ∧
    ((fun _ _ => Except.error "boom" : HostEval)
        (buildEvalContext [("a", vStr "1")]) (rewriteFormula [("a", vStr "1")] "x") =
      Except.error "boom") ∧
    applyTransform (fun _ _ => Except.error "boom") [] [] [("a", vStr "1")]
        ⟨"tc", TransformType.custom, "out", [], some "x", none, none, none⟩ =
      (rowSet [("a", vStr "1")] "out" (vStr "Error"), some "boom") := by
  refine ⟨rfl, rfl, by decide, rfl, ?_⟩
  exact (custom_formula_error_isolation (fun _ _ => Except.error "boom") [] []
    [("a", vStr "1")] ⟨"tc", TransformType.custom, "out", [], some "x", none, none, none⟩
    "x" "boom" rfl rfl (by decide) rfl).1

/-- C8: the `equals` filter is strict value equality with no type coercion —
a row passes exactly when its value in the filter's column is strictly equal
(same type, same value) to the filter's string value; a number never strictly
equals a string, and in particular a row holding the number 5 is not matched
by the filter value `"5"` while a row holding the string `"5"` is, so the two
are never both matched. -/
theorem equals_filter_strict :
    (∀ (idv col fv : String) (cs : Option Bool) (r : Row),
      rowPassesFilter ⟨idv, col, FilterOp.equals, fv, cs⟩ r =
        jsStrictEq (rowGet r col) (vStr fv)) ∧
    (∀ (s : String) (n : JsNum), jsStrictEq (vNum n) (vStr s) = false) ∧
    rowPassesFilter ⟨"f", "c", FilterOp.equals, "5", none⟩ [("c", vNum (JsNum.fin 5))] = false ∧
    rowPassesFilter ⟨"f", "c", FilterOp.equals, "5", none⟩ [("c", vStr "5")] = true := by
  refine ⟨fun idv col fv cs r => rfl, fun s n => ?_, by decide, by decide⟩
  cases n <;> rfl

theorem insertUnique_mem (l : List String) (s k : String) :
    k ∈ insertUnique l s ↔ k ∈ l ∨ k = s := by
  unfold insertUnique
  by_cases hs : s ∈ l
  · rw [if_pos hs]
    constructor
    · exact fun h => Or.inl h
    · rintro (h | h)
      · exact h
      · exact h ▸ hs
  · rw [if_neg hs]
    simp

theorem insertUnique_nodup (l : List String) (s : String) (h : l.Nodup) :
    (insertUnique l s).Nodup := by
  unfold insertUnique
  by_cases hs : s ∈ l
  · rw [if_pos hs]; exact h
  · rw [if_neg hs]
    simp [List.nodup_append, h, hs]

theorem collectKeys_aux_mem (rows : List Row) (col : String) (acc : List String) (k : String) :
    k ∈ rows.foldl
      (fun acc r =>
        let v := rowGet r col
        if keyEligible v then insertUnique acc (jsTrim (jsToString v)) else acc)
      acc ↔
    k ∈ acc ∨ ∃ r ∈ rows, keyEligible (rowGet r col) = true ∧
      jsTrim (jsToString (rowGet r col)) = k := by
  induction rows generalizing acc with
  | nil => simp
  | cons rh rest ih =>
    simp only [List.foldl_cons]
    by_cases he : keyEligible (rowGet rh col) = true
    · rw [if_pos he] at *
      rw [ih]
      rw [insertUnique_mem]
      constructor
      · rintro ((h | h) | h)
        · exact Or.inl h
        · exact Or.inr ⟨rh, by simp, he, h.symm⟩
        · obtain ⟨r, hr, h1, h2⟩ := h
          exact Or.inr ⟨r, by simp [hr], h1, h2⟩
      · rintro (h | h)
        · exact Or.inl (Or.inl h)
        · obtain ⟨r, hr, h1, h2⟩ := h
          rcases List.mem_cons.mp hr with hr1 | hr2
          · subst hr1
            exact Or.inl (Or.inr h2.symm)
          · exact Or.inr ⟨r, hr2, h1, h2⟩
    · rw [if_neg he]
      rw [ih]
      constructor
      · rintro (h | h)
        · exact Or.inl h
        · obtain ⟨r, hr, h1, h2⟩ := h
          exact Or.inr ⟨r, by simp [hr], h1, h2⟩
      · rintro (h | h)
        · exact Or.inl h
        · obtain ⟨r, hr, h1, h2⟩ := h
          rcases List.mem_cons.mp hr with hr1 | hr2
          · subst hr1
            exact absurd h1 he
          · exact Or.inr ⟨r, hr2, h1, h2⟩

theorem collectKeys_aux_nodup (rows : List Row) (col : String) (acc : List String)
    (h : acc.Nodup) :
    (rows.foldl
      (fun acc r =>
        let v := rowGet r col
        if keyEligible v then insertUnique acc (jsTrim (jsToString v)) else acc)
      acc).Nodup := by
  induction rows generalizing acc with
  | nil => exact h
  | cons rh rest ih =>
    simp only [List.foldl_cons]
    by_cases he : keyEligible (rowGet rh col) = true
    · rw [if_pos he]
      exact ih _ (insertUnique_nodup _ _ h)
    · rw [if_neg he]
      exact ih _ h

/-- C10: the audit's key collection excludes absent and empty values together
with every value whose trimmed string form is empty or whose string form is exactly
`Error`, `undefined` or `null` (those string-form tests subsume the
absent/null/empty checks), collects each remaining key trimmed, and
deduplicates, so membership is existence of a row whose trimmed value equals
the key, the collected list is duplicate-free, and values differing only in
surrounding whitespace are audited as a single key. -/
theorem audit_key_collection :
    (∀ v : Value, keyEligible v = true ↔
      (jsTrim (jsToString v) ≠ "" ∧ jsToString v ≠ "Error" ∧
        jsToString v ≠ "undefined" ∧ jsToString v ≠ "null")) ∧
    (∀ (rows : List Row) (col k : String),
      k ∈ collectKeys rows col ↔
        ∃ r ∈ rows, keyEligible (rowGet r col) = true ∧
          jsTrim (jsToString (rowGet r col)) = k) ∧
    (∀ (rows : List Row) (col : String), (collectKeys rows col).Nodup) ∧
    collectKeys [[("c", vStr " x")], [("c", vStr "x ")]] "c" = ["x"] := by
  refine ⟨?_, ?_, ?_, by decide⟩
  · intro v
    simp only [keyEligible, Bool.and_eq_true, decide_eq_true_eq]
    constructor
    · rintro ⟨⟨⟨⟨⟨⟨h1, h2⟩, h3⟩, h4⟩, h5⟩, h6⟩, h7⟩
      exact ⟨h4, h5, h6, h7⟩
    · rintro ⟨h4, h5, h6, h7⟩
      refine ⟨⟨⟨⟨⟨⟨?_, ?_⟩, ?_⟩, h4⟩, h5⟩, h6⟩, h7⟩
      · intro hv; subst hv; exact h6 rfl
      · intro hv; subst hv; exact h7 rfl
      · intro hv; subst hv; exact h4 (by decide)
  · intro rows col k
    unfold collectKeys
    rw [collectKeys_aux_mem]
    simp
  · intro rows col
    unfold collectKeys
    exact collectKeys_aux_nodup rows col [] (by simp)

theorem fillFold_get_notmem (cols : List TemplateColumn)
    (maps : List (String × Option String)) (row : Row) (tr : Row) (name : String)
    (h : name ∉ cols.map TemplateColumn.name) :
    rowGet (cols.foldl
      (fun tr c =>
        rowSet tr c.name
          (match c.constant with
           | some k => vStr k
           | none =>
             match mappingFor maps c.name with
             | some m =>
               if "CONST:".isPrefixOf m then vStr (m.drop 6)
               else if m ≠ "" ∧ jsTruthy (rowGet row m) then rowGet row m
               else vStr ""
             | none => vStr ""))
      tr) name = rowGet tr name := by
  induction cols generalizing tr with
  | nil => rfl
  | cons a rest ih =>
    simp only [List.foldl_cons]
    have hna : name ≠ a.name := by
      intro hh
      exact h (by simp [hh])
    rw [ih _ (fun hm => h (by simp at hm ⊢; exact Or.inr hm)),
      rowGet_rowSet_ne _ _ _ _ hna]

/-- C5 counterexample: the template column `C` is mapped to the processed
column `X`, the row's field `X` is present with the numeric value 0, and the
output is the empty string rather than that value — refuting the claim that a
mapped processed column uses the row's value whenever the field is present. -/
theorem template_falsy_counterexample :
    rowGet (fillTemplateRow [⟨"C", none⟩] [("C", some "X")] [("X", vNum (JsNum.fin 0))]) "C" =
      vStr "" ∧
    rowGet [("X", vNum (JsNum.fin 0))] "X" = vNum (JsNum.fin 0) ∧
    vStr "" ≠ vNum (JsNum.fin 0) := by
  refine ⟨by decide, by decide, by decide⟩

theorem fillFold_get_mem (cols : List TemplateColumn)
    (maps : List (String × Option String)) (row : Row)
    (hnd : (cols.map TemplateColumn.name).Nodup)
    (c : TemplateColumn) (hc : c ∈ cols) :
    ∀ tr : Row, rowGet (cols.foldl
      (fun tr c =>
        rowSet tr c.name
          (match c.constant with
           | some k => vStr k
           | none =>
             match mappingFor maps c.name with
             | some m =>
               if "CONST:".isPrefixOf m then vStr (m.drop 6)
               else if m ≠ "" ∧ jsTruthy (rowGet row m) then rowGet row m
               else vStr ""
             | none => vStr ""))
      tr) c.name = templateValueSpec c maps row := by
  induction cols with
  | nil => exact absurd hc (by simp)
  | cons a rest ih =>
    intro tr
    simp only [List.map_cons, List.nodup_cons] at hnd
    rcases List.mem_cons.mp hc with hca | hcr
    · subst hca
      simp only [List.foldl_cons]
      rw [fillFold_get_notmem rest maps row _ c.name hnd.1, rowGet_rowSet_self]
      rfl
    · simp only [List.foldl_cons]
      exact ih hnd.2 hcr _

/-- C5 (amended): per template column, the mapper resolves by the first
applicable of: (1) the column's own template-file constant, which always wins;
(2) a `CONST:` literal mapping; (3) a mapping to a processed column, which
uses that row's value when the field is present and truthy and the empty
string otherwise (so absent fields, empty strings, zero and NaN all yield the
empty string); (4) no mapping, the empty string — and the output row count
equals the transformed-row count. -/
theorem template_resolution (cols : List TemplateColumn)
    (maps : List (String × Option String)) (rows : List Row)
    (hnd : (cols.map TemplateColumn.name).Nodup) :
    (fillTemplate cols maps rows).length = rows.length ∧
    ∀ r ∈ rows, ∀ c ∈ cols,
      rowGet (fillTemplateRow cols maps r) c.name = templateValueSpec c maps r := by
  constructor
  · simp [fillTemplate]
  · intro r _ c hc
    exact fillFold_get_mem cols maps r hnd c hc []

/-- C5 witness: the resolution characterization at a three-column template
(file constant, `CONST:` literal mapping, mapped processed column) over one
row. -/
theorem template_resolution_witness :
    (List.map TemplateColumn.name
      [⟨"Cur", some "USD"⟩, ⟨"Lit", none⟩, ⟨"Val", none⟩]).Nodup ∧
    ((fillTemplate [⟨"Cur", some "USD"⟩, ⟨"Lit", none⟩, ⟨"Val", none⟩]
        [("Lit", some "CONST:fixed"), ("Val", some "X")]
        [[("X", vStr "7")]]).length = List.length [[("X", vStr "7")]] ∧
      ∀ r ∈ [[("X", vStr "7")]],
        ∀ c ∈ [⟨"Cur", some "USD"⟩, ⟨"Lit", none⟩, (⟨"Val", none⟩ : TemplateColumn)],
        rowGet (fillTemplateRow [⟨"Cur", some "USD"⟩, ⟨"Lit", none⟩, ⟨"Val", none⟩]
            [("Lit", some "CONST:fixed"), ("Val", some "X")] r) c.name =
          templateValueSpec c [("Lit", some "CONST:fixed"), ("Val", some "X")] r) := by
  refine ⟨by decide, ?_⟩
  exact template_resolution [⟨"Cur", some "USD"⟩, ⟨"Lit", none⟩, ⟨"Val", none⟩]
    [("Lit", some "CONST:fixed"), ("Val", some "X")] [[("X", vStr "7")]] (by decide)

theorem replayStep_eq_engine (eval : HostEval) (r : Row) (t : Transformation)
    (h : t.type ≠ TransformType.xlookup) :
    replayStep eval r t = (applyTransform eval [] [] r t).1 := by
  cases hT : t.type with
  | xlookup => exact absurd hT h
  | custom =>
    cases hf : t.formula with
    | none => simp [replayStep, applyTransform, transformWrite, hT, hf]
    | some f =>
      by_cases hne : f ≠ ""
      · simp only [replayStep, applyTransform, transformWrite, hT, hf, hne, if_true]
        cases he : eval (buildEvalContext r) (rewriteFormula r f) <;> simp [he, hne]
      · simp [replayStep, applyTransform, transformWrite, hT, hf, hne]
  | multiply =>
    simp only [replayStep, applyTransform, transformWrite, hT]
    rcases t.sourceColumns with _ | ⟨s0, _ | ⟨s1, _ | _⟩⟩ <;> rfl
  | add =>
    simp only [replayStep, applyTransform, transformWrite, hT]
    rcases t.sourceColumns with _ | ⟨s0, _ | ⟨s1, _ | _⟩⟩ <;> rfl
  | subtract =>
    simp only [replayStep, applyTransform, transformWrite, hT]
    rcases t.sourceColumns with _ | ⟨s0, _ | ⟨s1, _ | _⟩⟩ <;> rfl
  | divide =>
    simp only [replayStep, applyTransform, transformWrite, hT]
    rcases t.sourceColumns with _ | ⟨s0, _ | ⟨s1, _ | _⟩⟩ <;> rfl
  | concat =>
    simp only [replayStep, applyTransform, transformWrite, hT]
  | text =>
    simp only [replayStep, applyTransform, transformWrite, hT]

theorem replayStep_of_xlookup (eval : HostEval) (r : Row) (t : Transformation)
    (h : t.type = TransformType.xlookup) : replayStep eval r t = r := by
  simp [replayStep, h]

theorem auditReplay_eq_engine (eval : HostEval) (ts : List Transformation) (i : Nat)
    (rows : List Row) :
    auditReplay eval ts i rows =
      rows.map (fun r => rowAfterTransforms eval [] []
        ((ts.take i).filter (fun t => decide (t.type ≠ TransformType.xlookup))) r) := by
  unfold auditReplay
  generalize (ts.take i) = l
  induction l generalizing rows with
  | nil => simp [rowAfterTransforms]
  | cons t l' ih =>
    simp only [List.foldl_cons]
    by_cases hx : t.type = TransformType.xlookup
    · have hmapid : rows.map (fun r => replayStep eval r t) = rows := by
        rw [List.map_congr_left (fun r _ => replayStep_of_xlookup eval r t hx)]
        exact List.map_id rows
      have hfilt : (t :: l').filter (fun t => decide (t.type ≠ TransformType.xlookup)) =
          l'.filter (fun t => decide (t.type ≠ TransformType.xlookup)) := by
        rw [List.filter_cons_of_neg]
        simp [hx]
      rw [hmapid, hfilt]
      exact ih rows
    · have hfilt : (t :: l').filter (fun t => decide (t.type ≠ TransformType.xlookup)) =
          t :: l'.filter (fun t => decide (t.type ≠ TransformType.xlookup)) := by
        rw [List.filter_cons_of_pos]
        simp [hx]
      rw [hfilt, ih (rows.map (fun r => replayStep eval r t)), List.map_map]
      apply List.map_congr_left
      intro r _
      simp only [Function.comp]
      have : rowAfterTransforms eval [] []
          (t :: l'.filter (fun t => decide (t.type ≠ TransformType.xlookup))) r =
          rowAfterTransforms eval [] []
            (l'.filter (fun t => decide (t.type ≠ TransformType.xlookup)))
            ((applyTransform eval [] [] r t).1) := rfl
      rw [this, replayStep_eq_engine eval r t hx]

/-- C2 counterexample: with a filter keeping only the row `A="x"`, the live
run resolves every lookup (its single processed row gets `out="1"` and no
sentinel appears), yet the auditor — which replays over the pre-filter
configured rows — reports the key `"y"` as missing: the audited key set is
not the set of keys the live run fails to resolve. -/
theorem audit_live_divergence_counterexample :
    auditMissingKeys evalIdent
        [⟨"t0", TransformType.xlookup, "out", ["A"], none, some "s1", some "K", some "R"⟩]
        [⟨"s1", "S", [[("K", vStr "x"), ("R", vStr "1")]], ["K", "R"]⟩]
        [[("A", vStr "x")], [("A", vStr "y")]]
        ⟨"t0", TransformType.xlookup, "out", ["A"], none, some "s1", some "K", some "R"⟩ 0 =
      ["y"] ∧
    (processData evalIdent
        [⟨"s1", "S", [[("K", vStr "x"), ("R", vStr "1")]], ["K", "R"]⟩]
        [⟨"f1", "A", FilterOp.equals, "x", none⟩]
        [⟨"t0", TransformType.xlookup, "out", ["A"], none, some "s1", some "K", some "R"⟩]
        [[("A", vStr "x")], [("A", vStr "y")]]).1 =
      [[("A", vStr "x"), ("out", vStr "1")]] := by
  refine ⟨by decide, by decide⟩

/-- C2 (amended): the auditor replays transformations `[0, i)` over the
post-column-selection, *pre-filter* rows, skipping every earlier xlookup step
while replaying the arithmetic, concat and custom steps exactly as the
transform engine does (a replayed custom failure writes `Error` and touches
no counter); its reported missing keys are then exactly the distinct trimmed
non-empty, non-sentinel values of `sourceColumns[0]` across those replayed
rows that have no tier match in the target — where a `main` target is the
replayed rows themselves, not the engine's frozen post-filter snapshot. -/
theorem audit_replay_characterization (eval : HostEval) (ts : List Transformation)
    (sheets : List SupportSheet) (configured : List Row) (t : Transformation) (i : Nat)
    (ls lc sc0 : String) (rest : List String)
    (hls : t.lookupSheet = some ls) (hlc : t.lookupColumn = some lc)
    (hsc : t.sourceColumns = sc0 :: rest) (hne : ls ≠ "" ∧ lc ≠ "") :
    auditReplay eval ts i configured =
      configured.map (fun r => rowAfterTransforms eval [] []
        ((ts.take i).filter (fun t' => decide (t'.type ≠ TransformType.xlookup))) r) ∧
    auditMissingKeys eval ts sheets configured t i =
      (collectKeys
          (configured.map (fun r => rowAfterTransforms eval [] []
            ((ts.take i).filter (fun t' => decide (t'.type ≠ TransformType.xlookup))) r))
          sc0).filter
        (fun k => !auditFound
          (configured.map (fun r => rowAfterTransforms eval [] []
            ((ts.take i).filter (fun t' => decide (t'.type ≠ TransformType.xlookup))) r))
          sheets ls lc k) := by
  refine ⟨auditReplay_eq_engine eval ts i configured, ?_⟩
  unfold auditMissingKeys
  rw [hls, hlc, hsc]
  simp only
  rw [if_pos hne, auditReplay_eq_engine eval ts i configured]

/-- C2 witness: the characterization applied to a one-transform list over one
configured row and a support-sheet target containing the key. -/
theorem audit_replay_characterization_witness :
    Transformation.lookupSheet
      ⟨"t0", TransformType.xlookup, "out", ["A"], none, some "s1", some "K", some "R"⟩ =
      some "s1" ∧
    Transformation.lookupColumn
      ⟨"t0", TransformType.xlookup, "out", ["A"], none, some "s1", some "K", some "R"⟩ =
      some "K" ∧
    Transformation.sourceColumns
      ⟨"t0", TransformType.xlookup, "out", ["A"], none, some "s1", some "K", some "R"⟩ =
      "A" :: [] ∧
    (("s1" : String) ≠ "" ∧ ("K" : String) ≠ "") ∧
    auditMissingKeys evalIdent
        [⟨"t0", TransformType.xlookup, "out", ["A"], none, some "s1", some "K", some "R"⟩]
        [⟨"s1", "S", [[("K", vStr "x"), ("R", vStr "1")]], ["K", "R"]⟩]
        [[("A", vStr "x")]]
        ⟨"t0", TransformType.xlookup, "out", ["A"], none, some "s1", some "K", some "R"⟩ 0 =
      (collectKeys
          (List.map (fun r => rowAfterTransforms evalIdent [] []
            ((List.take 0 [⟨"t0", TransformType.xlookup, "out", ["A"], none, some "s1", some "K", some "R"⟩]).filter
              (fun t' => decide (t'.type ≠ TransformType.xlookup))) r)
            [[("A", vStr "x")]])
          "A").filter
        (fun k => !auditFound
          (List.map (fun r => rowAfterTransforms evalIdent [] []
            ((List.take 0 [⟨"t0", TransformType.xlookup, "out", ["A"], none, some "s1", some "K", some "R"⟩]).filter
              (fun t' => decide (t'.type ≠ TransformType.xlookup))) r)
            [[("A", vStr "x")]])
          [⟨"s1", "S", [[("K", vStr "x"), ("R", vStr "1")]], ["K", "R"]⟩] "s1" "K" k) := by
  refine ⟨rfl, rfl, rfl, by decide, ?_⟩
  exact (audit_replay_characterization evalIdent
    [⟨"t0", TransformType.xlookup, "out", ["A"], none, some "s1", some "K", some "R"⟩]
    [⟨"s1", "S", [[("K", vStr "x"), ("R", vStr "1")]], ["K", "R"]⟩]
    [[("A", vStr "x")]]
    ⟨"t0", TransformType.xlookup, "out", ["A"], none, some "s1", some "K", some "R"⟩ 0
    "s1" "K" "A" [] rfl rfl rfl (by decide)).2

theorem wbScanAux_allWord_wordPrev (pat rep : List Char) :
    ∀ (fuel : Nat) (s : List Char) (p : Char),
      s.length ≤ fuel → (∀ c ∈ s, isWordChar c = true) → isWordChar p = true →
      wbScanAux pat rep fuel (some p) s = s := by
  intro fuel
  induction fuel with
  | zero =>
    intro s p hlen _ _
    cases s with
    | nil => rfl
    | cons c cs => simp at hlen
  | succ n ih =>
    intro s p hlen hword hp
    cases s with
    | nil => rfl
    | cons c cs =>
      have hm : wbMatchAt pat (some p) (c :: cs) = false := by
        unfold wbMatchAt
        cases pat with
        | nil => simp
        | cons q qt =>
          by_cases hpre : (q :: qt).isPrefixOf (c :: cs) = true
          · have hq : q = c := by
              obtain ⟨tl, htl⟩ := List.isPrefixOf_iff_prefix.mp hpre
              rw [List.cons_append] at htl
              injection htl with h1 _
            have hqw : isWordChar q = true := by
              rw [hq]
              exact hword c (by simp)
            simp [hpre, optWord, hp, hqw]
          · simp [hpre]
      have hstep : wbScanAux pat rep (Nat.succ n) (some p) (c :: cs) =
          c :: wbScanAux pat rep n (some c) cs := by
        simp [wbScanAux, hm]
      rw [hstep]
      have hlen' : cs.length ≤ n := by
        simp only [List.length_cons] at hlen
        omega
      rw [ih cs c hlen' (fun x hx => hword x (by simp [hx])) (hword c (by simp))]

theorem wbScanAux_allWord_top (pat rep : List Char) (s : List Char)
    (hword : ∀ c ∈ s, isWordChar c = true) (hne : pat ≠ s) :
    wbScanAux pat rep s.length none s = s := by
  cases s with
  | nil => rfl
  | cons c cs =>
    have hm : wbMatchAt pat none (c :: cs) = false := by
      unfold wbMatchAt
      cases pat with
      | nil => simp
      | cons q qt =>
        by_cases hpre : (q :: qt).isPrefixOf (c :: cs) = true
        · have hpfx := List.isPrefixOf_iff_prefix.mp hpre
          have hrem : (c :: cs).drop (q :: qt).length ≠ [] := by
            intro hnil
            exact hne (hpfx.eq_of_length_le (List.drop_eq_nil_iff.mp hnil))
          obtain ⟨d, ds, hd⟩ : ∃ d ds, (c :: cs).drop (q :: qt).length = d :: ds := by
            cases hdr : (c :: cs).drop (q :: qt).length with
            | nil => exact absurd hdr hrem
            | cons d ds => exact ⟨d, ds, rfl⟩
          have hdw : isWordChar d = true := by
            apply hword
            apply List.drop_subset (q :: qt).length (c :: cs)
            rw [hd]
            simp
          have hlast : (q :: qt).getLast? = some ((q :: qt).getLast (by simp)) :=
            List.getLast?_eq_getLast _ _
          have hlw : isWordChar ((q :: qt).getLast (by simp)) = true := by
            apply hword
            apply hpfx.subset
            exact List.getLast_mem _
          rw [hlast, hd]
          simp [hpre, optWord, hdw, hlw]
        · simp [hpre]
    have hstep : wbScanAux pat rep (c :: cs).length none (c :: cs) =
        c :: wbScanAux pat rep cs.length (some c) cs := by
      simp [wbScanAux, hm]
    rw [hstep]
    rw [wbScanAux_allWord_wordPrev pat rep cs.length cs c le_rfl
      (fun x hx => hword x (by simp [hx])) (hword c (by simp))]

theorem wbScanAux_self (pat rep : List Char) (hpat : pat ≠ [])
    (hword : ∀ c ∈ pat, isWordChar c = true) :
    wbScanAux pat rep pat.length none pat = rep := by
  cases pat with
  | nil => exact absurd rfl hpat
  | cons q qt =>
    have hpre : (q :: qt).isPrefixOf (q :: qt) = true :=
      List.isPrefixOf_iff_prefix.mpr (List.prefix_refl _)
    have hqw : isWordChar q = true := hword q (by simp)
    have hlast : (q :: qt).getLast? = some ((q :: qt).getLast (by simp)) :=
      List.getLast?_eq_getLast _ _
    have hlw : isWordChar ((q :: qt).getLast (by simp)) = true :=
      hword _ (List.getLast_mem _)
    have hdrop : (q :: qt).drop (q :: qt).length = [] := List.drop_length _
    have hm : wbMatchAt (q :: qt) none (q :: qt) = true := by
      unfold wbMatchAt
      simp [hpre, optWord, hqw, hlast, hlw, hdrop]
    have hstep : wbScanAux (q :: qt) rep (q :: qt).length none (q :: qt) =
        rep ++ wbScanAux (q :: qt) rep qt.length (q :: qt).getLast?
          (qt.drop ((q :: qt).length - 1)) := by
      simp [wbScanAux, hm]
    rw [hstep]
    have : qt.drop ((q :: qt).length - 1) = [] := by
      simp
    rw [this]
    have hnil : wbScanAux (q :: qt) rep qt.length (q :: qt).getLast? [] = [] := by
      cases qt <;> rfl
    rw [hnil]
    simp

theorem string_data_ne {a b : String} (h : a ≠ b) : a.data ≠ b.data := by
  intro hd
  exact h (congrArg String.mk hd)

theorem string_data_ne_nil {a : String} (h : a ≠ "") : a.data ≠ [] := by
  intro hd
  exact h (congrArg String.mk hd)

theorem safeKey_of_word (k : String) (hword : ∀ c ∈ k.data, isWordChar c = true) :
    safeKey k = k := by
  unfold safeKey
  have h1 : List.map (fun c => if isWordChar c then c else '_') k.data =
      List.map id k.data :=
    List.map_congr_left (fun c hc => by simp [hword c hc])
  rw [h1, List.map_id]

theorem jsWordReplace_of_ne (s k rep : String)
    (hword : ∀ c ∈ s.data, isWordChar c = true) (hne : k ≠ s) :
    jsWordReplace s k rep = s := by
  unfold jsWordReplace
  rw [wbScanAux_allWord_top k.data rep.data s.data hword (string_data_ne hne)]

theorem jsWordReplace_self (k rep : String) (hk : k ≠ "")
    (hword : ∀ c ∈ k.data, isWordChar c = true) :
    jsWordReplace k k rep = rep := by
  unfold jsWordReplace
  rw [wbScanAux_self k.data rep.data (string_data_ne_nil hk) hword]

theorem rewriteFold_id (keysl : List String) (k : String) (hk : k ≠ "")
    (hword : ∀ c ∈ k.data, isWordChar c = true) :
    keysl.foldl (fun sf k' => jsWordReplace sf k' (safeKey k')) k = k := by
  induction keysl with
  | nil => rfl
  | cons k0 rest ih =>
    simp only [List.foldl_cons]
    by_cases h0 : k0 = k
    · subst h0
      rw [jsWordReplace_self k0 (safeKey k0) hk hword, safeKey_of_word k0 hword]
      exact ih
    · rw [jsWordReplace_of_ne k k0 (safeKey k0) hword h0]
      exact ih

theorem ctxFold_get_notmem (r : Row) (keysl : List String) (acc : Row) (s : String)
    (h : ∀ k ∈ keysl, safeKey k ≠ s) :
    rowGet (keysl.foldl (fun ctx k => rowSet ctx (safeKey k) (jsNumOr (rowGet r k))) acc) s =
      rowGet acc s := by
  induction keysl generalizing acc with
  | nil => rfl
  | cons k0 rest ih =>
    simp only [List.foldl_cons]
    rw [ih _ (fun k hk => h k (by simp [hk]))]
    exact rowGet_rowSet_ne _ _ _ _ (fun hs => h k0 (by simp) hs.symm)

theorem ctxFold_get_mem (r : Row) (keysl : List String) (k : String)
    (hnd : keysl.Nodup) (hk : k ∈ keysl)
    (huniq : ∀ k' ∈ keysl, safeKey k' = safeKey k → k' = k) :
    ∀ acc : Row,
      rowGet (keysl.foldl (fun ctx k => rowSet ctx (safeKey k) (jsNumOr (rowGet r k))) acc)
        (safeKey k) = jsNumOr (rowGet r k) := by
  induction keysl with
  | nil => exact absurd hk (by simp)
  | cons k0 rest ih =>
    intro acc
    simp only [List.nodup_cons] at hnd
    rcases List.mem_cons.mp hk with hk0 | hkr
    · subst hk0
      simp only [List.foldl_cons]
      have hnot : ∀ k' ∈ rest, safeKey k' ≠ safeKey k := by
        intro k' hk' hs
        have := huniq k' (by simp [hk']) hs
        subst this
        exact hnd.1 hk'
      rw [ctxFold_get_notmem r rest _ _ hnot, rowGet_rowSet_self]
    · simp only [List.foldl_cons]
      exact ih hnd.2 hkr (fun k' hk' hs => huniq k' (by simp [hk']) hs) _

/-- C6 counterexample: the distinct field names `a_b` and `a b` rewrite to
the same safe identifier `a_b`, so the scope binds the bare identifier `a_b`
— which names the field `a_b` holding 1 — to the later-inserted colliding
field's value 2: an identifier is not always bound to the value of the field
it names, refuting the claim. -/
theorem formula_scope_counterexample :
    safeKey "a b" = safeKey "a_b" ∧
    ("a b" : String) ≠ "a_b" ∧
    rewriteFormula [("a_b", vNum (JsNum.fin 1)), ("a b", vNum (JsNum.fin 2))] "a_b" = "a_b" ∧
    rowGet [("a_b", vNum (JsNum.fin 1)), ("a b", vNum (JsNum.fin 2))] "a_b" =
      vNum (JsNum.fin 1) ∧
    rowGet (buildEvalContext [("a_b", vNum (JsNum.fin 1)), ("a b", vNum (JsNum.fin 2))])
        (safeKey "a_b") = vNum (JsNum.fin 2) ∧
    vNum (JsNum.fin 1) ≠ vNum (JsNum.fin 2) := by
  refine ⟨by decide, by decide, by decide, by decide, by decide, by decide⟩

/-- C6 (amended): when the row's field names are pairwise distinct, non-empty
and made of word characters only — so that the safe-key rewriting is
injective on them and no name can partially match inside another — the
rewriting is faithful: every field name is its own safe key, the evaluation
scope binds each field name to `Number(value) || value` of exactly that
field, and a formula consisting of one bare field name is left unchanged by
the whole-word rewriting pass (names containing regex metacharacters or
colliding after sanitisation fall outside this guarantee, as the
counterexample shows). -/
theorem formula_scope_faithful (r : Row)
    (hnd : (rowKeys r).Nodup)
    (hword : ∀ k ∈ rowKeys r, k ≠ "" ∧ ∀ c ∈ k.data, isWordChar c = true) :
    (∀ k ∈ rowKeys r, safeKey k = k) ∧
    (∀ k ∈ rowKeys r, rowGet (buildEvalContext r) (safeKey k) = jsNumOr (rowGet r k)) ∧
    (∀ k ∈ rowKeys r, rewriteFormula r k = k) := by
  have hsk : ∀ k ∈ rowKeys r, safeKey k = k := fun k hk => safeKey_of_word k (hword k hk).2
  refine ⟨hsk, ?_, ?_⟩
  · intro k hk
    unfold buildEvalContext
    apply ctxFold_get_mem r (rowKeys r) k hnd hk
    intro k' hk' hs
    rw [hsk k' hk', hsk k hk] at hs
    exact hs
  · intro k hk
    unfold rewriteFormula
    exact rewriteFold_id (rowKeys r) k (hword k hk).1 (hword k hk).2

/-- C6 witness: the faithfulness theorem applied to a row with the word-only
field names `Price` and `Quantity`. -/
theorem formula_scope_faithful_witness :
    (rowKeys [("Price", vStr "10"), ("Quantity", vStr "3")]).Nodup ∧
    (∀ k ∈ rowKeys [("Price", vStr "10"), ("Quantity", vStr "3")],
      k ≠ "" ∧ ∀ c ∈ k.data, isWordChar c = true) ∧
    ((∀ k ∈ rowKeys [("Price", vStr "10"), ("Quantity", vStr "3")], safeKey k = k) ∧
      (∀ k ∈ rowKeys [("Price", vStr "10"), ("Quantity", vStr "3")],
        rowGet (buildEvalContext [("Price", vStr "10"), ("Quantity", vStr "3")]) (safeKey k) =
          jsNumOr (rowGet [("Price", vStr "10"), ("Quantity", vStr "3")] k)) ∧
      (∀ k ∈ rowKeys [("Price", vStr "10"), ("Quantity", vStr "3")],
        rewriteFormula [("Price", vStr "10"), ("Quantity", vStr "3")] k = k)) := by
  refine ⟨by decide, by decide, ?_⟩
  exact formula_scope_faithful [("Price", vStr "10"), ("Quantity", vStr "3")]
    (by decide) (by decide)
